import Mathlib

/-!
Verification of the continuous-test "write-read-series" prober.

The repository ships the behavioural test suite of the prober
(`continuoustest` package, `TestWriteReadSeriesTest_Run`,
`TestWriteReadSeriesTest_Init`, `TestWriteReadSeriesTest_getRangeQueryTimeRanges`);
the prober implementation itself (the `WriteReadSeriesTest` type with its
`Run`, `Init` and `getQueryTimeRanges` methods) is not part of the sources
available here.  The definitions below therefore model that implementation
from the specification, and every place where the specification's wording is
refined or contradicted by an assertion of the in-repo test suite is noted in
the corresponding doc string.  Timestamps are Unix seconds (`Int`); sample
values are rationals (`ℚ`), which model the float arithmetic exactly on the
inputs used by the tests; the remote client is an oracle passed in as a
function, mirroring the mocked client of the test suite.
-/

namespace ContinuousTest

/-- Modelled from the spec: the fixed write interval ("canonically 20 s",
glossary and §3 I2) used by the missing `WriteReadSeriesTest` implementation.
The test suite's mock expectations all use a 20 second `writeInterval`. -/
def writeInterval : Int := 20

/-- Per-metric mutable record of the prober, as in the spec §3 "Metric
history" and the test suite's `records` (`lastWrittenTimestamp`,
`queryMinTime`, `queryMaxTime`); the zero value means "no confirmed
history". -/
structure MetricHistory where
  lastWrittenTimestamp : Int
  queryMinTime : Int
  queryMaxTime : Int
deriving DecidableEq

/-- The all-zero history a freshly constructed prober starts from. -/
def MetricHistory.zero : MetricHistory := ⟨0, 0, 0⟩

/-- Modelled from the spec: the configuration surface of the missing
implementation restricted to the fields the modelled behaviour depends on
(`NumSeries`, `MaxQueryAge`, spec §6). -/
structure WriteReadSeriesTestConfig where
  NumSeries : Nat
  MaxQueryAge : Int
deriving DecidableEq

/-- Modelled from the spec: `target ← floor(now / writeInterval) *
writeInterval` (spec §4.4 step 1).  `Int` division by a positive divisor is
floor division. -/
def alignTimestampToInterval (ts interval : Int) : Int :=
  interval * (ts / interval)

/-- Modelled from the spec: the interval-aligned timestamps in the half-open
interval `(lastWritten, target]`, in chronological order (spec §4.4 step 3). -/
def backfillTimestamps (lastWritten target interval : Int) : List Int :=
  let first := interval * (lastWritten / interval + 1)
  let count := ((target - first) / interval + 1).toNat
  (List.range count).map (fun i : Nat => first + interval * (i : Int))

/-- Modelled from the spec: the timestamps phase W pushes this tick — a
single aligned target when there is no history, otherwise the backfill from
the last written timestamp up to the target (spec §4.4 steps 2 and 3). -/
def writePlan (lastWritten now interval : Int) : List Int :=
  let target := alignTimestampToInterval now interval
  if lastWritten = 0 then [target] else backfillTimestamps lastWritten target interval

/-- Outcome class of one remote-write attempt. -/
inductive WriteOutcome where
  | success
  | fail4xx
  | fatal
deriving DecidableEq

/-- Modelled from the spec: classification of a write response (spec §4.4
step 4): HTTP 2xx succeeds, HTTP 4xx is a non-fatal failure, and anything
else — HTTP 5xx or a transport error (status code 0 in the test suite's
mock) — is fatal for this tick's write phase. -/
def classifyStatus (code : Nat) : WriteOutcome :=
  if 200 ≤ code ∧ code < 300 then .success
  else if 400 ≤ code ∧ code < 500 then .fail4xx
  else .fatal

/-- State threaded through phase W: the metric history, whether some write of
this tick succeeded, the `writes_total` counter, the status codes counted in
`writes_failed_total`, the timestamps of the issued `WriteSeries` calls in
order, and whether the phase was aborted by a fatal failure. -/
structure WState where
  hist : MetricHistory
  hadSuccess : Bool
  writesTotal : Nat
  failedCodes : List Nat
  calls : List Int
  fatal : Bool
deriving DecidableEq

/-- Modelled from the spec: the effect of one write attempt (spec §4.4 step
4).  On 2xx the spec's words set `queryMinTime ← queryMaxTime ← target`; the
in-repo backfill test (`should write series from last written timestamp until
now`) asserts a subsequent `QueryRange(960, 1000)` call, which requires
`queryMinTime`/`queryMaxTime` to advance to the just-written timestamp
instead, so that refinement is used here (see `writeStepSpecLiteral` for the
spec's literal words).  On 4xx the failure is counted and
`lastWrittenTimestamp` still advances; on 5xx/transport the failure is
counted, the history is left unchanged and the phase is marked aborted. -/
def writeStep (resp : Int → Nat) (s : WState) (ts : Int) : WState :=
  let code := resp ts
  match classifyStatus code with
  | .success =>
      { s with
        hist := ⟨ts, if s.hist.queryMinTime = 0 then ts else s.hist.queryMinTime, ts⟩
        hadSuccess := true
        writesTotal := s.writesTotal + 1
        calls := s.calls ++ [ts] }
  | .fail4xx =>
      { s with
        hist := ⟨ts, s.hist.queryMinTime, s.hist.queryMaxTime⟩
        writesTotal := s.writesTotal + 1
        failedCodes := s.failedCodes ++ [code]
        calls := s.calls ++ [ts] }
  | .fatal =>
      { s with
        writesTotal := s.writesTotal + 1
        failedCodes := s.failedCodes ++ [code]
        calls := s.calls ++ [ts]
        fatal := true }

/-- Modelled from the spec: phase W issues the planned writes in order and
aborts at the first fatal failure (spec §4.4 step 4). -/
def writePhase (resp : Int → Nat) : WState → List Int → WState
  | s, [] => s
  | s, ts :: rest =>
      let s' := writeStep resp s ts
      if s'.fatal then s' else writePhase resp s' rest

/-- Modelled from the spec: the bounded relative tolerance for sample
comparison, `1e-6` (spec §4.4 phase Q and §9). -/
def maxComparisonDelta : ℚ := 1 / 1000000

/-- Modelled from the spec: dynamic value comparison `|observed − expected| ≤
ε · max(1, |expected|)` with `ε = 1e-6` (spec §9). -/
def sampleMatches (expected actual : ℚ) : Bool :=
  decide (|actual - expected| ≤ maxComparisonDelta * max 1 |expected|)

/-- Counts the result checks over the samples of one query result: the first
component is the number of compared samples (`query_result_checks_total`),
the second the number of mismatches (`query_result_checks_failed_total`);
each sample `(t, v)` is compared against `NumSeries * generateValue(t)`
(spec §4.4 phase Q step 2). -/
def countChecks (n : Nat) (generateValue : Int → ℚ) : List (Int × ℚ) → Nat × Nat
  | [] => (0, 0)
  | s :: rest =>
      let p := countChecks n generateValue rest
      (p.1 + 1, if sampleMatches ((n : ℚ) * generateValue s.1) s.2 then p.2 else p.2 + 1)

/-- The remote client capability (spec §6): `WriteSeries` is an oracle from
the write timestamp to the returned status code; `QueryRange` and `Query` are
oracles from the query window (and the results-cache flag distinguishing the
two executions of each planned query) to either a transport error or the
returned matrix/vector of `(timestamp, value)` samples. -/
structure Client where
  writeResp : Int → Nat
  rangeResp : Int → Int → Bool → Except Unit (List (List (Int × ℚ)))
  instantResp : Int → Bool → Except Unit (List (Int × ℚ))

/-- State threaded through phase Q: query counters, result-check counters,
the issued `QueryRange` and `Query` calls in order, and whether some query or
check failed. -/
structure QState where
  queriesTotal : Nat
  queriesFailed : Nat
  checksTotal : Nat
  checksFailed : Nat
  rangeCalls : List (Int × Int)
  instantCalls : List Int
  err : Bool
deriving DecidableEq

/-- One `QueryRange` execution: counts the attempt, records the call, and on
success compares every returned sample (all series flattened) against the
expected sum (spec §4.4 phase Q step 2); a transport failure counts in
`queries_failed_total`. -/
def runRangeQuery (n : Nat) (generateValue : Int → ℚ) (client : Client)
    (q : QState) (r : Int × Int) (cache : Bool) : QState :=
  let q := { q with queriesTotal := q.queriesTotal + 1, rangeCalls := q.rangeCalls ++ [r] }
  match client.rangeResp r.1 r.2 cache with
  | .error _ => { q with queriesFailed := q.queriesFailed + 1, err := true }
  | .ok matrix =>
      let p := countChecks n generateValue matrix.flatten
      { q with
        checksTotal := q.checksTotal + p.1
        checksFailed := q.checksFailed + p.2
        err := q.err || !(p.2 == 0) }

/-- One `Query` (instant) execution, compared identically to range results
(spec §4.4 phase Q step 3). -/
def runInstantQuery (n : Nat) (generateValue : Int → ℚ) (client : Client)
    (q : QState) (i : Int) (cache : Bool) : QState :=
  let q := { q with queriesTotal := q.queriesTotal + 1, instantCalls := q.instantCalls ++ [i] }
  match client.instantResp i cache with
  | .error _ => { q with queriesFailed := q.queriesFailed + 1, err := true }
  | .ok vector =>
      let p := countChecks n generateValue vector
      { q with
        checksTotal := q.checksTotal + p.1
        checksFailed := q.checksFailed + p.2
        err := q.err || !(p.2 == 0) }

/-- The empty phase-Q state. -/
def QState.init : QState := ⟨0, 0, 0, 0, [], [], false⟩

/-- Phase Q: every planned range is executed twice (once with and once
without the results cache) by `QueryRange`, then every planned instant twice
by `Query`; the in-repo `Run` tests pin two executions per planned query
(4 `QueryRange` and 4 `Query` calls for the planner's 2 ranges and 2
instants, `queries_total = 8`). -/
def queryPhase (n : Nat) (generateValue : Int → ℚ) (client : Client)
    (ranges : List (Int × Int)) (instants : List Int) : QState :=
  let q1 := ranges.foldl
    (fun q r => runRangeQuery n generateValue client
      (runRangeQuery n generateValue client q r true) r false) QState.init
  instants.foldl
    (fun q i => runInstantQuery n generateValue client
      (runInstantQuery n generateValue client q i true) i false) q1

/-- The planner's internal sentinels (spec §4.2 and §7): no usable history,
or history older than the maximum query age. -/
inductive PlanError where
  | noHistory
  | historyStale
deriving DecidableEq

/-- Result of the time-range planner, mirroring the Go return triple
`(ranges, instants, err)`. -/
structure PlanResult where
  ranges : List (Int × Int)
  instants : List Int
  err : Option PlanError
deriving DecidableEq

/-- A random time inside `[a, b]`: the injected source `rnd` picks, and the
result is clamped into the interval, modelling a correctly bounded uniform
pick with an arbitrary source. -/
def randTime (rnd : Int → Int → Int) (a b : Int) : Int :=
  max a (min (rnd a b) b)

/-- Modelled from the spec: `getQueryTimeRanges(now, history)` (spec §4.2),
with the window conditions refined to what the in-repo
`TestWriteReadSeriesTest_getRangeQueryTimeRanges` cases pin down: the
"last 1h" entries are emitted only when `queryMaxTime` is newer than
`now − 1h` (the spec's "always present" fails its `min and max query time are
within the last 2h` case); the "last 24h" entries also require `queryMaxTime`
newer than `now − 24h`; the boundary window requires the history to cross
`now − 23h`; window bounds use the query-age-clipped minimum
`max(queryMinTime, now − MaxQueryAge)` (pinned by the `max query age is only
10m` case). -/
def getQueryTimeRanges (maxQueryAge : Int) (rnd : Int → Int → Int)
    (now : Int) (h : MetricHistory) : PlanResult :=
  if h.queryMinTime = 0 ∧ h.queryMaxTime = 0 then ⟨[], [], some .noHistory⟩
  else if h.queryMaxTime < now - maxQueryAge then ⟨[], [], some .historyStale⟩
  else
    let adjMin := max h.queryMinTime (now - maxQueryAge)
    let m := h.queryMaxTime
    let r1 := if now - 3600 < m then [(max adjMin (now - 3600), min m now)] else []
    let i1 := if now - 3600 < m then [min m now] else []
    let r2 := if now - 86400 < m ∧ adjMin < now - 3600 then
        [(max adjMin (now - 86400), min m now)] else []
    let i2 := if now - 86400 < m ∧ adjMin < now - 3600 then
        [max adjMin (now - 86400)] else []
    let r3 := if adjMin < now - 82800 ∧ now - 82800 < m then
        [(max adjMin (now - 86400), min m (now - 82800))] else []
    let rndA := randTime rnd adjMin m
    let rndB := randTime rnd rndA m
    ⟨r1 ++ r2 ++ r3 ++ [(rndA, rndB)], i1 ++ i2 ++ [randTime rnd adjMin m], none⟩

/-- The observable outcome of one `Run(ctx, now)` call: the updated metric
history, the counter increments of this tick, the remote calls issued in
order, and whether `Run` returned a non-nil error. -/
structure RunResult where
  hist : MetricHistory
  writesTotal : Nat
  writesFailedCodes : List Nat
  queriesTotal : Nat
  queriesFailed : Nat
  checksTotal : Nat
  checksFailed : Nat
  writeCalls : List Int
  rangeCalls : List (Int × Int)
  instantCalls : List Int
  err : Bool
deriving DecidableEq

/-- Modelled from the spec: `Run(ctx, now)` for one metric (spec §4.4).
Phase W writes the planned timestamps, aborting on a fatal failure.  Phase Q
runs only if the write phase was not aborted and produced at least one
successful write; it invokes the planner and, when the planner fails with its
internal sentinel, skips the queries without surfacing an error.  `Run`
returns an error exactly when some write, query or result check failed
(spec §6 "Exit / return codes"). -/
def Run (cfg : WriteReadSeriesTestConfig) (generateValue : Int → ℚ) (client : Client)
    (rnd : Int → Int → Int) (h : MetricHistory) (now : Int) : RunResult :=
  let plan := writePlan h.lastWrittenTimestamp now writeInterval
  let ws := writePhase client.writeResp ⟨h, false, 0, [], [], false⟩ plan
  let baseErr : Bool := !(ws.failedCodes.isEmpty)
  if ws.fatal || !ws.hadSuccess then
    ⟨ws.hist, ws.writesTotal, ws.failedCodes, 0, 0, 0, 0, ws.calls, [], [], baseErr⟩
  else
    let p := getQueryTimeRanges cfg.MaxQueryAge rnd now ws.hist
    match p.err with
    | some _ => ⟨ws.hist, ws.writesTotal, ws.failedCodes, 0, 0, 0, 0, ws.calls, [], [], baseErr⟩
    | none =>
        let q := queryPhase cfg.NumSeries generateValue client p.ranges p.instants
        ⟨ws.hist, ws.writesTotal, ws.failedCodes, q.queriesTotal, q.queriesFailed,
          q.checksTotal, q.checksFailed, ws.calls, q.rangeCalls, q.instantCalls,
          baseErr || q.err⟩

/-- Modelled from the spec: a sample `(t, v)` returned during recovery is
valid iff the observed cardinality `round(v / generateValue(t))` equals the
configured `NumSeries` (spec §4.3 step 2c and §9). -/
def sampleValid (n : Nat) (generateValue : Int → ℚ) (s : Int × ℚ) : Bool :=
  decide (round (s.2 / generateValue s.1) = (n : Int))

/-- Walks a reversed sample list backwards from the timestamp `t` of the
latest valid sample, extending as long as the next-older sample is valid and
exactly one write interval older, and returns the oldest timestamp of that
contiguous valid run (spec §4.3 step 2d). -/
def chainOldest (interval : Int) (valid : Int × ℚ → Bool) : Int → List (Int × ℚ) → Int
  | t, [] => t
  | t, s :: rest => if valid s ∧ s.1 = t - interval then chainOldest interval valid s.1 rest else t

/-- Finds, in a chunk's samples (oldest first), the latest valid sample and
the oldest sample of the contiguous interval-spaced valid run ending at it,
returning `(chunkOldest, chunkLatest)` (spec §4.3 step 2d). -/
def findValidRun (interval : Int) (valid : Int × ℚ → Bool)
    (samples : List (Int × ℚ)) : Option (Int × Int) :=
  match samples.reverse.dropWhile (fun s => !(valid s)) with
  | [] => none
  | s :: rest => some (chainOldest interval valid s.1 rest, s.1)

/-- Modelled from the spec: the recovery loop of `Init` (spec §4.3).  The
cursor walks back in 24 h chunks from `now`; each chunk `[max(oldestAllowed,
end − 24h + writeInterval), end]` is range-queried (the second component of
the result counts the issued queries).  A failing query stops the loop and
keeps whatever was accumulated.  On the first chunk a valid run whose latest
sample is not newer than `end − 1h` resets the history to zero (too stale to
trust); otherwise it sets all three history fields.  A later chunk extends
`queryMinTime` only when its latest valid sample adjoins the previous
`queryMinTime` by exactly one write interval.  The loop continues only while
the recovered run reaches the chunk's start. -/
def initLoop (client : Int → Int → Except Unit (List (List (Int × ℚ))))
    (n : Nat) (generateValue : Int → ℚ) (oldestAllowed : Int) :
    Nat → Int → MetricHistory → Nat → MetricHistory × Nat
  | 0, _, h, queries => (h, queries)
  | fuel + 1, stop, h, queries =>
      if stop ≤ oldestAllowed then (h, queries)
      else
        let start := max oldestAllowed (stop - 86400 + writeInterval)
        match client start stop with
        | .error _ => (h, queries + 1)
        | .ok matrix =>
            match findValidRun writeInterval (sampleValid n generateValue) matrix.flatten with
            | none => (h, queries + 1)
            | some run =>
                if h.queryMaxTime = 0 then
                  if run.2 ≤ stop - 3600 then (h, queries + 1)
                  else
                    let h' : MetricHistory := ⟨run.2, run.1, run.2⟩
                    if run.1 ≤ start then
                      initLoop client n generateValue oldestAllowed fuel (stop - 86400) h' (queries + 1)
                    else (h', queries + 1)
                else
                  if run.2 = h.queryMinTime - writeInterval then
                    let h' : MetricHistory := ⟨h.lastWrittenTimestamp, run.1, h.queryMaxTime⟩
                    if run.1 ≤ start then
                      initLoop client n generateValue oldestAllowed fuel (stop - 86400) h' (queries + 1)
                    else (h', queries + 1)
                  else (h, queries + 1)

/-- Modelled from the spec: `Init(ctx, now)` for one metric (spec §4.3):
recovers the metric history by probing backwards from `now` in 24 h chunks
down to `now − MaxQueryAge`, starting from the zero history; it never fails,
also returning how many range queries were issued.  The range-query oracle
maps the chunk bounds `(start, end)` to a transport error or the returned
matrix. -/
def Init (cfg : WriteReadSeriesTestConfig)
    (generateValue : Int → ℚ)
    (client : Int → Int → Except Unit (List (List (Int × ℚ))))
    (now : Int) : MetricHistory × Nat :=
  let oldestAllowed := now - cfg.MaxQueryAge
  let fuel := (now - oldestAllowed).toNat / 86400 + 1
  initLoop client cfg.NumSeries generateValue oldestAllowed fuel now MetricHistory.zero 0

/-- The timestamps `start, start + interval, …` of `count` samples. -/
def sampleTimes (start interval : Int) (count : Nat) : List Int :=
  (List.range count).map (fun i : Nat => start + interval * (i : Int))

/-- The test suite's `generateSamplesSum` helper restricted to what the
scenarios need: `count` samples spaced `interval` apart starting at `start`,
each carrying the summed value `c * generateValue(t)` (for `c` the number of
series the data was written with). -/
def generateSamplesSum (c : ℚ) (generateValue : Int → ℚ)
    (start interval : Int) (count : Nat) : List (Int × ℚ) :=
  (sampleTimes start interval count).map (fun t => (t, c * generateValue t))

/-- The spec's literal wording of §4.4 step 4 for a 2xx response — "on the
first successful write set `queryMinTime ← queryMaxTime ← target`; otherwise
set `queryMaxTime ← target`", with `target` the tick's aligned write target.
Kept separate from `writeStep` because the in-repo backfill test refutes this
wording: it asserts a `QueryRange(960, 1000)` call that is impossible when
`queryMinTime` is set to the target `1000`. -/
def writeStepSpecLiteral (target : Int) (resp : Int → Nat) (s : WState) (ts : Int) : WState :=
  let code := resp ts
  match classifyStatus code with
  | .success =>
      { s with
        hist := ⟨ts, if s.hadSuccess then s.hist.queryMinTime else target, target⟩
        hadSuccess := true
        writesTotal := s.writesTotal + 1
        calls := s.calls ++ [ts] }
  | .fail4xx =>
      { s with
        hist := ⟨ts, s.hist.queryMinTime, s.hist.queryMaxTime⟩
        writesTotal := s.writesTotal + 1
        failedCodes := s.failedCodes ++ [code]
        calls := s.calls ++ [ts] }
  | .fatal =>
      { s with
        writesTotal := s.writesTotal + 1
        failedCodes := s.failedCodes ++ [code]
        calls := s.calls ++ [ts]
        fatal := true }

/-- Phase W under the spec's literal 2xx wording (see `writeStepSpecLiteral`). -/
def writePhaseSpecLiteral (target : Int) (resp : Int → Nat) : WState → List Int → WState
  | s, [] => s
  | s, ts :: rest =>
      let s' := writeStepSpecLiteral target resp s ts
      if s'.fatal then s' else writePhaseSpecLiteral target resp s' rest

/-- `Run` with phase W following the spec's literal 2xx wording (see
`writeStepSpecLiteral`); everything else is identical to `Run`. -/
def RunSpecLiteral (cfg : WriteReadSeriesTestConfig) (generateValue : Int → ℚ)
    (client : Client) (rnd : Int → Int → Int) (h : MetricHistory) (now : Int) : RunResult :=
  let target := alignTimestampToInterval now writeInterval
  let plan := writePlan h.lastWrittenTimestamp now writeInterval
  let ws := writePhaseSpecLiteral target client.writeResp ⟨h, false, 0, [], [], false⟩ plan
  let baseErr : Bool := !(ws.failedCodes.isEmpty)
  if ws.fatal || !ws.hadSuccess then
    ⟨ws.hist, ws.writesTotal, ws.failedCodes, 0, 0, 0, 0, ws.calls, [], [], baseErr⟩
  else
    let p := getQueryTimeRanges cfg.MaxQueryAge rnd now ws.hist
    match p.err with
    | some _ => ⟨ws.hist, ws.writesTotal, ws.failedCodes, 0, 0, 0, 0, ws.calls, [], [], baseErr⟩
    | none =>
        let q := queryPhase cfg.NumSeries generateValue client p.ranges p.instants
        ⟨ws.hist, ws.writesTotal, ws.failedCodes, q.queriesTotal, q.queriesFailed,
          q.checksTotal, q.checksFailed, ws.calls, q.rangeCalls, q.instantCalls,
          baseErr || q.err⟩

/-- A constant generator used to instantiate scenario theorems (the
generators of the source are abstract inputs to the model). -/
def genOne : Int → ℚ := fun _ => 1

/-- A deterministic random source picking the lower bound, standing in for
the seeded PRNG of the source. -/
def rndLow : Int → Int → Int := fun a _ => a

/-- A client whose writes all return the given status code and whose queries
succeed with empty results, mirroring the mocks of the `Run` tests. -/
def constClient (code : Nat) : Client :=
  ⟨fun _ => code, fun _ _ _ => .ok [], fun _ _ => .ok []⟩

/-- The configuration the `Run` scenarios use: 2 series, a 7-day maximum
query age. -/
def cfgScenario : WriteReadSeriesTestConfig := ⟨2, 604800⟩

/-- The first-chunk response of the in-repo cardinality-change `Init`
scenario at `N = 2`, `now = 864000`: sums of `2 − 1` series from the chunk
start up to `now − 67m`, then sums of `2` series from `now − 67m +
writeInterval` up to `now − 1m`. -/
def cardChangeClient : Int → Int → Except Unit (List (List (Int × ℚ))) :=
  fun _ _ =>
    .ok [generateSamplesSum (((2 : Nat) : ℚ) - 1) genOne (864000 - 86380) writeInterval 4119
      ++ generateSamplesSum ((2 : Nat) : ℚ) genOne (864000 - 4000) writeInterval 198]

/-- Invariant I1/P3 of the spec (§3, §8): either the whole history is zero,
or `queryMinTime ≤ queryMaxTime ≤ lastWrittenTimestamp`. -/
def histInvariant (h : MetricHistory) : Prop :=
  (h.lastWrittenTimestamp = 0 ∧ h.queryMinTime = 0 ∧ h.queryMaxTime = 0) ∨
  (h.queryMinTime ≤ h.queryMaxTime ∧ h.queryMaxTime ≤ h.lastWrittenTimestamp)

/-- Invariant I2/P2 of the spec (§3, §8): every recorded timestamp is a
multiple of the write interval (zero trivially is one). -/
def histAligned (h : MetricHistory) : Prop :=
  h.lastWrittenTimestamp % writeInterval = 0 ∧
  h.queryMinTime % writeInterval = 0 ∧
  h.queryMaxTime % writeInterval = 0

/-- Consistency of the phase-Q failure flag with the failure counters. -/
def QState.consistent (q : QState) : Prop :=
  q.err = true ↔ (q.queriesFailed ≠ 0 ∨ q.checksFailed ≠ 0)

/-! ## Write plan lemmas -/

theorem backfillTimestamps_mem {interval : Int} (hpos : 0 < interval)
    (lastWritten target t : Int) :
    t ∈ backfillTimestamps lastWritten target interval ↔
      t % interval = 0 ∧ lastWritten < t ∧ t ≤ target := by
  unfold backfillTimestamps
  simp only [List.mem_map, List.mem_range]
  constructor
  · rintro ⟨i, hi, rfl⟩
    refine ⟨?_, ?_, ?_⟩
    · have : interval * (lastWritten / interval + 1) + interval * (i : Int)
          = interval * (lastWritten / interval + 1 + (i : Int)) := by ring
      rw [this]
      exact Int.mul_emod_right _ _
    · have h1 : lastWritten < (lastWritten / interval + 1) * interval :=
        Int.lt_ediv_add_one_mul_self lastWritten hpos
      have h2 : (0 : Int) ≤ interval * (i : Int) :=
        mul_nonneg (le_of_lt hpos) (by exact_mod_cast Nat.zero_le i)
      nlinarith [h1, h2]
    · have hi' : (i : Int) < (target - interval * (lastWritten / interval + 1)) / interval + 1 :=
        Int.lt_toNat.mp hi
    -- hence i ≤ that quotient, hence interval * i bounded
      have hle : (i : Int) ≤ (target - interval * (lastWritten / interval + 1)) / interval := by
        omega
      have := (Int.le_ediv_iff_mul_le hpos).mp hle
      nlinarith [this]
  · rintro ⟨hmod, hlt, hle⟩
    have ht : interval * (t / interval) = t := by
      have := Int.ediv_add_emod t interval
      omega
    have hq : lastWritten / interval < t / interval := by
      by_contra hcon
      push_neg at hcon
      have h1 : interval * (t / interval) ≤ interval * (lastWritten / interval) :=
        mul_le_mul_of_nonneg_left hcon (le_of_lt hpos)
      have h2 : interval * (lastWritten / interval) + lastWritten % interval = lastWritten :=
        Int.ediv_add_emod lastWritten interval
      have h3 : 0 ≤ lastWritten % interval := Int.emod_nonneg lastWritten (ne_of_gt hpos)
      omega
    refine ⟨(t / interval - (lastWritten / interval + 1)).toNat, ?_, ?_⟩
    · rw [Int.lt_toNat, Int.toNat_of_nonneg (by omega)]
      have hdiv : t / interval - (lastWritten / interval + 1)
          ≤ (target - interval * (lastWritten / interval + 1)) / interval := by
        rw [Int.le_ediv_iff_mul_le hpos]
        have : (t / interval - (lastWritten / interval + 1)) * interval
            = interval * (t / interval) - interval * (lastWritten / interval + 1) := by ring
        rw [this, ht]
        omega
      omega
    · rw [Int.toNat_of_nonneg (by omega)]
      have : interval * (lastWritten / interval + 1)
          + interval * (t / interval - (lastWritten / interval + 1))
          = interval * (t / interval) := by ring
      rw [this, ht]

theorem backfillTimestamps_pairwise {interval : Int} (hpos : 0 < interval)
    (lastWritten target : Int) :
    (backfillTimestamps lastWritten target interval).Pairwise (· < ·) := by
  unfold backfillTimestamps
  refine List.Pairwise.map _ ?_ (List.pairwise_lt_range _)
  intro a b hab
  have : (a : Int) < (b : Int) := by exact_mod_cast hab
  nlinarith [this, hpos]

theorem writePlan_of_zero (now interval : Int) :
    writePlan 0 now interval = [alignTimestampToInterval now interval] := by
  simp [writePlan]

theorem writePlan_pairwise {interval : Int} (hpos : 0 < interval)
    (lastWritten now : Int) :
    (writePlan lastWritten now interval).Pairwise (· < ·) := by
  unfold writePlan
  by_cases h : lastWritten = 0
  · simp [h]
  · simpa [h] using backfillTimestamps_pairwise hpos lastWritten
      (alignTimestampToInterval now interval)

theorem alignTimestampToInterval_emod (now interval : Int) :
    alignTimestampToInterval now interval % interval = 0 := by
  unfold alignTimestampToInterval
  exact Int.mul_emod_right _ _

theorem alignTimestampToInterval_nonneg {now interval : Int}
    (hnow : 0 ≤ now) (hpos : 0 < interval) :
    0 ≤ alignTimestampToInterval now interval :=
  mul_nonneg (le_of_lt hpos) (Int.ediv_nonneg hnow (le_of_lt hpos))

theorem writePlan_mem {interval : Int} (hpos : 0 < interval) {lastWritten now t : Int}
    (hnow : 0 ≤ now) (h : t ∈ writePlan lastWritten now interval) :
    t % interval = 0 ∧ lastWritten ≤ t ∧ t ≤ alignTimestampToInterval now interval := by
  unfold writePlan at h
  by_cases hz : lastWritten = 0
  · simp [hz] at h
    subst h
    exact ⟨alignTimestampToInterval_emod now interval,
      hz ▸ alignTimestampToInterval_nonneg hnow hpos, le_refl _⟩
  · simp [hz] at h
    have := (backfillTimestamps_mem hpos lastWritten _ t).mp h
    exact ⟨this.1, le_of_lt this.2.1, this.2.2⟩

/-! ## Write phase lemmas -/

theorem writeStep_success (resp : Int → Nat) (s : WState) (ts : Int)
    (h : classifyStatus (resp ts) = .success) :
    writeStep resp s ts =
      { s with
        hist := ⟨ts, if s.hist.queryMinTime = 0 then ts else s.hist.queryMinTime, ts⟩
        hadSuccess := true
        writesTotal := s.writesTotal + 1
        calls := s.calls ++ [ts] } := by
  simp only [writeStep, h]

theorem writeStep_fail4xx (resp : Int → Nat) (s : WState) (ts : Int)
    (h : classifyStatus (resp ts) = .fail4xx) :
    writeStep resp s ts =
      { s with
        hist := ⟨ts, s.hist.queryMinTime, s.hist.queryMaxTime⟩
        writesTotal := s.writesTotal + 1
        failedCodes := s.failedCodes ++ [resp ts]
        calls := s.calls ++ [ts] } := by
  simp only [writeStep, h]

theorem writeStep_fatal (resp : Int → Nat) (s : WState) (ts : Int)
    (h : classifyStatus (resp ts) = .fatal) :
    writeStep resp s ts =
      { s with
        writesTotal := s.writesTotal + 1
        failedCodes := s.failedCodes ++ [resp ts]
        calls := s.calls ++ [ts]
        fatal := true } := by
  simp only [writeStep, h]

theorem writeStep_fatal_flag (resp : Int → Nat) (s : WState) (ts : Int) :
    (writeStep resp s ts).fatal = (s.fatal || decide (classifyStatus (resp ts) = .fatal)) := by
  unfold writeStep
  rcases hc : classifyStatus (resp ts) <;> simp [hc]

theorem writePhase_cons (resp : Int → Nat) (s : WState) (ts : Int) (rest : List Int) :
    writePhase resp s (ts :: rest) =
      (if (writeStep resp s ts).fatal then writeStep resp s ts
        else writePhase resp (writeStep resp s ts) rest) := by
  rfl

theorem writeStep_calls (resp : Int → Nat) (s : WState) (ts : Int) :
    (writeStep resp s ts).calls = s.calls ++ [ts] := by
  unfold writeStep
  rcases hc : classifyStatus (resp ts) <;> simp [hc]

theorem writeStep_writesTotal (resp : Int → Nat) (s : WState) (ts : Int) :
    (writeStep resp s ts).writesTotal = s.writesTotal + 1 := by
  unfold writeStep
  rcases hc : classifyStatus (resp ts) <;> simp [hc]

/-- Phase W over a list of timestamps none of which draws a fatal response:
every write is attempted, in order, and `writes_total` counts each attempt. -/
theorem writePhase_no_fatal (resp : Int → Nat) :
    ∀ (l : List Int) (s : WState), s.fatal = false →
    (∀ ts ∈ l, classifyStatus (resp ts) ≠ .fatal) →
    (writePhase resp s l).calls = s.calls ++ l ∧
    (writePhase resp s l).writesTotal = s.writesTotal + l.length ∧
    (writePhase resp s l).fatal = false := by
  intro l
  induction l with
  | nil => intro s hs _; simpa [writePhase] using hs
  | cons ts rest ih =>
      intro s hs hl
      have hts : classifyStatus (resp ts) ≠ .fatal := hl ts (by simp)
      have hflag : (writeStep resp s ts).fatal = false := by
        rw [writeStep_fatal_flag, hs]
        simpa using hts
      have hrest := ih (writeStep resp s ts) hflag (fun t ht => hl t (by simp [ht]))
      rw [writePhase_cons, hflag]
      simp only [Bool.false_eq_true, if_false]
      refine ⟨?_, ?_, hrest.2.2⟩
      · rw [hrest.1, writeStep_calls]
        simp
      · rw [hrest.2.1, writeStep_writesTotal]
        simp only [List.length_cons]
        omega

/-- Phase W aborts at the first fatal response: the attempts are exactly the
non-fatal prefix plus the fatally failing write. -/
theorem writePhase_fatal_split (resp : Int → Nat) :
    ∀ (pre : List Int) (ts : Int) (rest : List Int) (s : WState), s.fatal = false →
    (∀ t ∈ pre, classifyStatus (resp t) ≠ .fatal) →
    classifyStatus (resp ts) = .fatal →
    writePhase resp s (pre ++ ts :: rest) = writeStep resp (writePhase resp s pre) ts := by
  intro pre
  induction pre with
  | nil =>
      intro ts rest s hs _ hfatal
      have hft : (writeStep resp s ts).fatal = true := by
        rw [writeStep_fatal_flag, hs, hfatal]
        simp
      rw [List.nil_append, writePhase_cons, hft]
      simp [writePhase]
  | cons t pre' ih =>
      intro ts rest s hs hl hfatal
      have hts : classifyStatus (resp t) ≠ .fatal := hl t (by simp)
      have hflag : (writeStep resp s t).fatal = false := by
        rw [writeStep_fatal_flag, hs]
        simpa using hts
      have hmain := ih ts rest (writeStep resp s t) hflag
        (fun u hu => hl u (by simp [hu])) hfatal
      rw [List.cons_append, writePhase_cons, hflag]
      simp only [Bool.false_eq_true, if_false]
      rw [hmain, writePhase_cons, hflag]
      simp

/-- `writes_total` always counts exactly the issued `WriteSeries` calls. -/
theorem writePhase_total_eq_calls (resp : Int → Nat) :
    ∀ (l : List Int) (s : WState),
    (writePhase resp s l).writesTotal + s.calls.length
      = (writePhase resp s l).calls.length + s.writesTotal := by
  intro l
  induction l with
  | nil => intro s; simp [writePhase, Nat.add_comm]
  | cons ts rest ih =>
      intro s
      rw [writePhase_cons]
      cases hf : (writeStep resp s ts).fatal
      · simp only [hf, Bool.false_eq_true, if_false]
        have := ih (writeStep resp s ts)
        rw [writeStep_calls, writeStep_writesTotal] at this
        simp only [List.length_append, List.length_cons, List.length_nil] at this
        omega
      · simp only [hf, if_true]
        rw [writeStep_calls, writeStep_writesTotal]
        simp only [List.length_append, List.length_cons, List.length_nil]
        omega

/-- Phase W preserves the history invariants and never rolls
`lastWrittenTimestamp` back, provided the pending timestamps are aligned, not
in the past of the history, and issued in ascending order. -/
theorem writePhase_invariant (resp : Int → Nat) :
    ∀ (l : List Int) (s : WState), histInvariant s.hist → histAligned s.hist →
    (∀ t ∈ l, t % writeInterval = 0 ∧ s.hist.lastWrittenTimestamp ≤ t ∧
      s.hist.queryMinTime ≤ t ∧ s.hist.queryMaxTime ≤ t) →
    l.Pairwise (· ≤ ·) →
    histInvariant (writePhase resp s l).hist ∧ histAligned (writePhase resp s l).hist ∧
      s.hist.lastWrittenTimestamp ≤ (writePhase resp s l).hist.lastWrittenTimestamp := by
  intro l
  induction l with
  | nil => intro s hinv hal _ _; exact ⟨hinv, hal, le_refl _⟩
  | cons ts rest ih =>
      intro s hinv hal hl hpw
      obtain ⟨hts_mod, hts_lwt, hts_min, hts_max⟩ := hl ts (by simp)
      rw [List.pairwise_cons] at hpw
      have hminmax : s.hist.queryMinTime ≤ s.hist.queryMaxTime := by
        rcases hinv with ⟨_, h2, h3⟩ | ⟨h1, _⟩ <;> omega
      have step_inv : histInvariant (writeStep resp s ts).hist ∧
          histAligned (writeStep resp s ts).hist ∧
          s.hist.lastWrittenTimestamp ≤ (writeStep resp s ts).hist.lastWrittenTimestamp ∧
          (writeStep resp s ts).hist.lastWrittenTimestamp ≤ ts ∧
          (writeStep resp s ts).hist.queryMinTime ≤ ts ∧
          (writeStep resp s ts).hist.queryMaxTime ≤ ts := by
        rcases hc : classifyStatus (resp ts) with _ | _ | _
        · rw [writeStep_success resp s ts hc]
          have hqmin : (if s.hist.queryMinTime = 0 then ts else s.hist.queryMinTime) ≤ ts := by
            by_cases hz : s.hist.queryMinTime = 0 <;> simp [hz, hts_min]
          have hqmod : (if s.hist.queryMinTime = 0 then ts else s.hist.queryMinTime)
              % writeInterval = 0 := by
            by_cases hz : s.hist.queryMinTime = 0 <;> simp [hz, hts_mod, hal.2.1]
          exact ⟨Or.inr ⟨hqmin, le_refl ts⟩, ⟨hts_mod, hqmod, hts_mod⟩,
            hts_lwt, le_refl ts, hqmin, le_refl ts⟩
        · rw [writeStep_fail4xx resp s ts hc]
          exact ⟨Or.inr ⟨hminmax, hts_max⟩, ⟨hts_mod, hal.2.1, hal.2.2⟩,
            hts_lwt, le_refl ts, hts_min, hts_max⟩
        · rw [writeStep_fatal resp s ts hc]
          exact ⟨hinv, hal, le_refl _, hts_lwt, hts_min, hts_max⟩
      obtain ⟨sinv, sal, smono, slwt, smin, smax⟩ := step_inv
      rw [writePhase_cons]
      by_cases hf : (writeStep resp s ts).fatal
      · simp only [hf, if_true]
        exact ⟨sinv, sal, smono⟩
      · simp only [hf, if_false]
        have hrest : ∀ t ∈ rest, t % writeInterval = 0 ∧
            (writeStep resp s ts).hist.lastWrittenTimestamp ≤ t ∧
            (writeStep resp s ts).hist.queryMinTime ≤ t ∧
            (writeStep resp s ts).hist.queryMaxTime ≤ t := by
          intro t ht
          have h1 := hl t (by simp [ht])
          have h2 := hpw.1 t ht
          exact ⟨h1.1, le_trans slwt h2, le_trans smin h2, le_trans smax h2⟩
        have hmain := ih (writeStep resp s ts) sinv sal hrest hpw.2
        exact ⟨hmain.1, hmain.2.1, le_trans smono hmain.2.2⟩

/-! ## Query phase lemmas -/

theorem countChecks_spec (n : Nat) (generateValue : Int → ℚ) :
    ∀ samples : List (Int × ℚ),
    (countChecks n generateValue samples).1 = samples.length ∧
    (countChecks n generateValue samples).2 =
      (samples.filter
        (fun s => !(sampleMatches ((n : ℚ) * generateValue s.1) s.2))).length := by
  intro samples
  induction samples with
  | nil => simp [countChecks]
  | cons s rest ih =>
      rw [countChecks]
      by_cases hm : sampleMatches ((n : ℚ) * generateValue s.1) s.2
      · simp only [hm, if_true, List.filter_cons, Bool.not_true, List.length_cons]
        exact ⟨by rw [ih.1], by simpa using ih.2⟩
      · have hm' : sampleMatches ((n : ℚ) * generateValue s.1) s.2 = false := by
          simpa using hm
        simp only [hm', Bool.false_eq_true, if_false, List.filter_cons, Bool.not_false,
          List.length_cons]
        exact ⟨by rw [ih.1], by simp [ih.2]⟩

theorem runRangeQuery_counters (n : Nat) (generateValue : Int → ℚ) (client : Client)
    (q : QState) (r : Int × Int) (cache : Bool) :
    (runRangeQuery n generateValue client q r cache).queriesTotal = q.queriesTotal + 1 ∧
    (runRangeQuery n generateValue client q r cache).rangeCalls = q.rangeCalls ++ [r] ∧
    (runRangeQuery n generateValue client q r cache).instantCalls = q.instantCalls := by
  unfold runRangeQuery
  rcases hr : client.rangeResp r.1 r.2 cache with _ | m <;> simp [hr]

theorem runInstantQuery_counters (n : Nat) (generateValue : Int → ℚ) (client : Client)
    (q : QState) (i : Int) (cache : Bool) :
    (runInstantQuery n generateValue client q i cache).queriesTotal = q.queriesTotal + 1 ∧
    (runInstantQuery n generateValue client q i cache).instantCalls = q.instantCalls ++ [i] ∧
    (runInstantQuery n generateValue client q i cache).rangeCalls = q.rangeCalls := by
  unfold runInstantQuery
  rcases hr : client.instantResp i cache with _ | v <;> simp [hr]

theorem runRangeQuery_consistent (n : Nat) (generateValue : Int → ℚ) (client : Client)
    (q : QState) (r : Int × Int) (cache : Bool) (h : q.consistent) :
    (runRangeQuery n generateValue client q r cache).consistent := by
  unfold QState.consistent at h ⊢
  unfold runRangeQuery
  rcases hr : client.rangeResp r.1 r.2 cache with _ | m
  · simp [hr]
  · simp only [hr]
    by_cases hcf : (countChecks n generateValue m.flatten).2 = 0
    · simpa [hcf] using h
    · simp [hcf]

theorem runInstantQuery_consistent (n : Nat) (generateValue : Int → ℚ) (client : Client)
    (q : QState) (i : Int) (cache : Bool) (h : q.consistent) :
    (runInstantQuery n generateValue client q i cache).consistent := by
  unfold QState.consistent at h ⊢
  unfold runInstantQuery
  rcases hr : client.instantResp i cache with _ | v
  · simp [hr]
  · simp only [hr]
    by_cases hcf : (countChecks n generateValue v).2 = 0
    · simpa [hcf] using h
    · simp [hcf]

theorem rangeFold_facts (n : Nat) (generateValue : Int → ℚ) (client : Client) :
    ∀ (rs : List (Int × Int)) (q : QState),
    (rs.foldl (fun q r => runRangeQuery n generateValue client
        (runRangeQuery n generateValue client q r true) r false) q).queriesTotal
      = q.queriesTotal + 2 * rs.length ∧
    (rs.foldl (fun q r => runRangeQuery n generateValue client
        (runRangeQuery n generateValue client q r true) r false) q).rangeCalls
      = q.rangeCalls ++ rs.flatMap (fun r => [r, r]) ∧
    (rs.foldl (fun q r => runRangeQuery n generateValue client
        (runRangeQuery n generateValue client q r true) r false) q).instantCalls
      = q.instantCalls ∧
    (q.consistent → (rs.foldl (fun q r => runRangeQuery n generateValue client
        (runRangeQuery n generateValue client q r true) r false) q).consistent) := by
  intro rs
  induction rs with
  | nil => intro q; simp
  | cons r rest ih =>
      intro q
      have c1 := runRangeQuery_counters n generateValue client q r true
      have c2 := runRangeQuery_counters n generateValue client
        (runRangeQuery n generateValue client q r true) r false
      have hrec := ih (runRangeQuery n generateValue client
        (runRangeQuery n generateValue client q r true) r false)
      simp only [List.foldl_cons, List.flatMap_cons, List.length_cons]
      refine ⟨?_, ?_, ?_, ?_⟩
      · rw [hrec.1, c2.1, c1.1]
        omega
      · rw [hrec.2.1, c2.2.1, c1.2.1]
        simp
      · rw [hrec.2.2.1, c2.2.2, c1.2.2]
      · intro hq
        exact hrec.2.2.2 (runRangeQuery_consistent n generateValue client _ r false
          (runRangeQuery_consistent n generateValue client q r true hq))

theorem instantFold_facts (n : Nat) (generateValue : Int → ℚ) (client : Client) :
    ∀ (is : List Int) (q : QState),
    (is.foldl (fun q i => runInstantQuery n generateValue client
        (runInstantQuery n generateValue client q i true) i false) q).queriesTotal
      = q.queriesTotal + 2 * is.length ∧
    (is.foldl (fun q i => runInstantQuery n generateValue client
        (runInstantQuery n generateValue client q i true) i false) q).instantCalls
      = q.instantCalls ++ is.flatMap (fun i => [i, i]) ∧
    (is.foldl (fun q i => runInstantQuery n generateValue client
        (runInstantQuery n generateValue client q i true) i false) q).rangeCalls
      = q.rangeCalls ∧
    (q.consistent → (is.foldl (fun q i => runInstantQuery n generateValue client
        (runInstantQuery n generateValue client q i true) i false) q).consistent) := by
  intro is
  induction is with
  | nil => intro q; simp
  | cons i rest ih =>
      intro q
      have c1 := runInstantQuery_counters n generateValue client q i true
      have c2 := runInstantQuery_counters n generateValue client
        (runInstantQuery n generateValue client q i true) i false
      have hrec := ih (runInstantQuery n generateValue client
        (runInstantQuery n generateValue client q i true) i false)
      simp only [List.foldl_cons, List.flatMap_cons, List.length_cons]
      refine ⟨?_, ?_, ?_, ?_⟩
      · rw [hrec.1, c2.1, c1.1]
        omega
      · rw [hrec.2.1, c2.2.1, c1.2.1]
        simp
      · rw [hrec.2.2.1, c2.2.2, c1.2.2]
      · intro hq
        exact hrec.2.2.2 (runInstantQuery_consistent n generateValue client _ i false
          (runInstantQuery_consistent n generateValue client q i true hq))

/-- Phase Q executes every planned range and every planned instant exactly
twice, so `queries_total` grows by two per planned query, and the failure
flag agrees with the failure counters. -/
theorem queryPhase_facts (n : Nat) (generateValue : Int → ℚ) (client : Client)
    (ranges : List (Int × Int)) (instants : List Int) :
    (queryPhase n generateValue client ranges instants).queriesTotal
      = 2 * (ranges.length + instants.length) ∧
    (queryPhase n generateValue client ranges instants).rangeCalls
      = ranges.flatMap (fun r => [r, r]) ∧
    (queryPhase n generateValue client ranges instants).instantCalls
      = instants.flatMap (fun i => [i, i]) ∧
    (queryPhase n generateValue client ranges instants).consistent := by
  unfold queryPhase
  have hinit : QState.init.consistent := by
    unfold QState.consistent QState.init
    simp
  have h1 := rangeFold_facts n generateValue client ranges QState.init
  have h2 := instantFold_facts n generateValue client instants
    (ranges.foldl (fun q r => runRangeQuery n generateValue client
      (runRangeQuery n generateValue client q r true) r false) QState.init)
  refine ⟨?_, ?_, ?_, h2.2.2.2 (h1.2.2.2 hinit)⟩
  · rw [h2.1, h1.1]
    simp [QState.init]
    ring
  · rw [h2.2.2.1, h1.2.1]
    simp [QState.init]
  · rw [h2.2.1, h1.2.2.1]
    simp [QState.init]

/-! ## Run level lemmas -/

/-- The write-side observables of `Run` are exactly those of phase W, whatever
happens in phase Q. -/
theorem Run_write_side (cfg : WriteReadSeriesTestConfig) (generateValue : Int → ℚ)
    (client : Client) (rnd : Int → Int → Int) (h : MetricHistory) (now : Int) :
    (Run cfg generateValue client rnd h now).hist
        = (writePhase client.writeResp ⟨h, false, 0, [], [], false⟩
            (writePlan h.lastWrittenTimestamp now writeInterval)).hist ∧
    (Run cfg generateValue client rnd h now).writesTotal
        = (writePhase client.writeResp ⟨h, false, 0, [], [], false⟩
            (writePlan h.lastWrittenTimestamp now writeInterval)).writesTotal ∧
    (Run cfg generateValue client rnd h now).writesFailedCodes
        = (writePhase client.writeResp ⟨h, false, 0, [], [], false⟩
            (writePlan h.lastWrittenTimestamp now writeInterval)).failedCodes ∧
    (Run cfg generateValue client rnd h now).writeCalls
        = (writePhase client.writeResp ⟨h, false, 0, [], [], false⟩
            (writePlan h.lastWrittenTimestamp now writeInterval)).calls := by
  unfold Run
  dsimp only
  split
  · exact ⟨rfl, rfl, rfl, rfl⟩
  · split
    · exact ⟨rfl, rfl, rfl, rfl⟩
    · exact ⟨rfl, rfl, rfl, rfl⟩

/-- `Run` reports an error exactly when a write failed, a query failed, or a
result check failed. -/
theorem Run_err_iff (cfg : WriteReadSeriesTestConfig) (generateValue : Int → ℚ)
    (client : Client) (rnd : Int → Int → Int) (h : MetricHistory) (now : Int) :
    ((Run cfg generateValue client rnd h now).err = true ↔
      ((Run cfg generateValue client rnd h now).writesFailedCodes ≠ [] ∨
        (Run cfg generateValue client rnd h now).queriesFailed ≠ 0 ∨
        (Run cfg generateValue client rnd h now).checksFailed ≠ 0)) := by
  unfold Run
  dsimp only
  split
  · simp
  · split
    · simp
    · rename_i p heq
      have hq := (queryPhase_facts cfg.NumSeries generateValue client
        (getQueryTimeRanges cfg.MaxQueryAge rnd now
          (writePhase client.writeResp ⟨h, false, 0, [], [], false⟩
            (writePlan h.lastWrittenTimestamp now writeInterval)).hist).ranges
        (getQueryTimeRanges cfg.MaxQueryAge rnd now
          (writePhase client.writeResp ⟨h, false, 0, [], [], false⟩
            (writePlan h.lastWrittenTimestamp now writeInterval)).hist).instants).2.2.2
      unfold QState.consistent at hq
      simp only [Bool.or_eq_true]
      rw [hq]
      simp

/-! ## Recovery (Init) lemmas -/

theorem chainOldest_cons (interval : Int) (valid : Int × ℚ → Bool) (t : Int)
    (s : Int × ℚ) (rest : List (Int × ℚ)) :
    chainOldest interval valid t (s :: rest)
      = if valid s ∧ s.1 = t - interval then chainOldest interval valid s.1 rest else t := rfl

theorem chainOldest_le {interval : Int} (hpos : 0 < interval) (valid : Int × ℚ → Bool) :
    ∀ (l : List (Int × ℚ)) (t : Int), chainOldest interval valid t l ≤ t := by
  intro l
  induction l with
  | nil => intro t; simp [chainOldest]
  | cons s rest ih =>
      intro t
      rw [chainOldest_cons]
      by_cases hc : (valid s = true) ∧ s.1 = t - interval
      · rw [if_pos hc]
        have := ih s.1
        omega
      · rw [if_neg hc]

theorem chainOldest_emod (interval : Int) (valid : Int × ℚ → Bool) :
    ∀ (l : List (Int × ℚ)) (t : Int), t % interval = 0 →
    (∀ s ∈ l, s.1 % interval = 0) →
    chainOldest interval valid t l % interval = 0 := by
  intro l
  induction l with
  | nil => intro t ht _; simpa [chainOldest] using ht
  | cons s rest ih =>
      intro t ht hl
      rw [chainOldest_cons]
      by_cases hc : (valid s = true) ∧ s.1 = t - interval
      · rw [if_pos hc]
        exact ih s.1 (hl s (by simp)) (fun u hu => hl u (by simp [hu]))
      · rw [if_neg hc]
        exact ht

theorem dropWhile_head_mem {α : Type} (p : α → Bool) :
    ∀ (l : List α) (x : α) (rest : List α), l.dropWhile p = x :: rest → x ∈ l := by
  intro l
  induction l with
  | nil => intro x rest h; simp [List.dropWhile] at h
  | cons a as ih =>
      intro x rest h
      rw [List.dropWhile_cons] at h
      by_cases hp : p a = true
      · simp only [hp, if_true] at h
        exact List.mem_cons_of_mem a (ih x rest h)
      · have hp' : p a = false := by simpa using hp
        simp only [hp', Bool.false_eq_true, if_false] at h
        rw [List.cons_eq_cons] at h
        simp [h.1]

theorem dropWhile_tail_subset {α : Type} (p : α → Bool) :
    ∀ (l : List α) (x : α) (rest : List α), l.dropWhile p = x :: rest →
    ∀ y ∈ rest, y ∈ l := by
  intro l x rest h y hy
  have hsub : (l.dropWhile p).Sublist l := List.dropWhile_sublist p
  exact hsub.subset (by rw [h]; simp [hy])

/-- A successful scan of a chunk yields `(chunkOldest, chunkLatest)` with
`chunkOldest ≤ chunkLatest`, and both are timestamps aligned like the chunk's
samples. -/
theorem findValidRun_facts {interval : Int} (hpos : 0 < interval)
    (valid : Int × ℚ → Bool) (samples : List (Int × ℚ)) (oldest latest : Int)
    (h : findValidRun interval valid samples = some (oldest, latest))
    (hal : ∀ s ∈ samples, s.1 % interval = 0) :
    oldest ≤ latest ∧ oldest % interval = 0 ∧ latest % interval = 0 := by
  unfold findValidRun at h
  rcases hd : samples.reverse.dropWhile (fun s => !(valid s)) with _ | ⟨s, rest⟩
  · rw [hd] at h
    simp at h
  · rw [hd] at h
    simp only [Option.some.injEq, Prod.mk.injEq] at h
    have hs_mem : s ∈ samples := by
      have := dropWhile_head_mem _ samples.reverse s rest hd
      simpa using this
    have hs_al : s.1 % interval = 0 := hal s hs_mem
    have hrest_al : ∀ u ∈ rest, u.1 % interval = 0 := by
      intro u hu
      have := dropWhile_tail_subset _ samples.reverse s rest hd u hu
      exact hal u (by simpa using this)
    refine ⟨?_, ?_, ?_⟩
    · rw [← h.1, ← h.2]
      exact chainOldest_le hpos valid rest s.1
    · rw [← h.1]
      exact chainOldest_emod interval valid rest s.1 hs_al hrest_al
    · rw [← h.2]
      exact hs_al

theorem initLoop_succ (client : Int → Int → Except Unit (List (List (Int × ℚ))))
    (n : Nat) (generateValue : Int → ℚ) (oldestAllowed : Int)
    (fuel : Nat) (stop : Int) (h : MetricHistory) (queries : Nat) :
    initLoop client n generateValue oldestAllowed (fuel + 1) stop h queries =
      (if stop ≤ oldestAllowed then (h, queries)
      else
        match client (max oldestAllowed (stop - 86400 + writeInterval)) stop with
        | .error _ => (h, queries + 1)
        | .ok matrix =>
            match findValidRun writeInterval (sampleValid n generateValue) matrix.flatten with
            | none => (h, queries + 1)
            | some run =>
                if h.queryMaxTime = 0 then
                  if run.2 ≤ stop - 3600 then (h, queries + 1)
                  else
                    if run.1 ≤ max oldestAllowed (stop - 86400 + writeInterval) then
                      initLoop client n generateValue oldestAllowed fuel (stop - 86400)
                        ⟨run.2, run.1, run.2⟩ (queries + 1)
                    else (⟨run.2, run.1, run.2⟩, queries + 1)
                else
                  if run.2 = h.queryMinTime - writeInterval then
                    if run.1 ≤ max oldestAllowed (stop - 86400 + writeInterval) then
                      initLoop client n generateValue oldestAllowed fuel (stop - 86400)
                        ⟨h.lastWrittenTimestamp, run.1, h.queryMaxTime⟩ (queries + 1)
                    else (⟨h.lastWrittenTimestamp, run.1, h.queryMaxTime⟩, queries + 1)
                  else (h, queries + 1)) := by
  rfl

/-- A chunk whose range query fails stops the loop and preserves whatever
history was accumulated so far. -/
theorem initLoop_query_error (client : Int → Int → Except Unit (List (List (Int × ℚ))))
    (n : Nat) (generateValue : Int → ℚ) (oldestAllowed : Int)
    (fuel : Nat) (stop : Int) (h : MetricHistory) (queries : Nat)
    (hstop : oldestAllowed < stop)
    (herr : client (max oldestAllowed (stop - 86400 + writeInterval)) stop = .error ()) :
    initLoop client n generateValue oldestAllowed (fuel + 1) stop h queries
      = (h, queries + 1) := by
  rw [initLoop_succ, if_neg (by omega), herr]

theorem generateSamplesSum_succ (c : ℚ) (generateValue : Int → ℚ)
    (start interval : Int) (k : Nat) :
    generateSamplesSum c generateValue start interval (k + 1)
      = generateSamplesSum c generateValue start interval k
        ++ [(start + interval * (k : Int), c * generateValue (start + interval * (k : Int)))] := by
  unfold generateSamplesSum sampleTimes
  rw [List.range_succ]
  simp

/-- Walking back through a fully valid, interval-spaced block of generated
samples lands on the block's start and keeps scanning the rest. -/
theorem chainOldest_genSamples (valid : Int × ℚ → Bool) (c : ℚ)
    (generateValue : Int → ℚ) (interval : Int) :
    ∀ (k : Nat) (start : Int) (rest : List (Int × ℚ)),
    (∀ s ∈ generateSamplesSum c generateValue start interval k, valid s = true) →
    chainOldest interval valid (start + interval * (k : Int))
      ((generateSamplesSum c generateValue start interval k).reverse ++ rest)
      = chainOldest interval valid start rest := by
  intro k
  induction k with
  | zero =>
      intro start rest _
      simp [generateSamplesSum, sampleTimes]
  | succ k ih =>
      intro start rest hv
      rw [generateSamplesSum_succ, List.reverse_append]
      simp only [List.reverse_cons, List.reverse_nil, List.nil_append, List.cons_append]
      rw [chainOldest_cons]
      have hvk : valid (start + interval * (k : Int),
          c * generateValue (start + interval * (k : Int))) = true :=
        hv _ (by rw [generateSamplesSum_succ]; simp)
      rw [if_pos ⟨hvk, by push_cast; ring⟩]
      exact ih start rest (fun s hs => hv s (by rw [generateSamplesSum_succ]; simp [hs]))

/-- The scan of a chunk made of an arbitrary block `A` followed by a full
block of `kB` valid generated samples, where `A` is empty or ends in a sample
that breaks the chain, recovers exactly the generated block. -/
theorem findValidRun_append (interval : Int) (valid : Int × ℚ → Bool)
    (A : List (Int × ℚ)) (c : ℚ) (generateValue : Int → ℚ) (startB : Int) (kB : Nat)
    (hkB : 0 < kB)
    (hvB : ∀ s ∈ generateSamplesSum c generateValue startB interval kB, valid s = true)
    (hA : A = [] ∨ ∃ aLast aInit, A = aInit ++ [aLast] ∧
      ¬(valid aLast = true ∧ aLast.1 = startB - interval)) :
    findValidRun interval valid (A ++ generateSamplesSum c generateValue startB interval kB)
      = some (startB, startB + interval * ((kB : Int) - 1)) := by
  obtain ⟨k, rfl⟩ : ∃ k, kB = k + 1 := ⟨kB - 1, by omega⟩
  rw [generateSamplesSum_succ]
  unfold findValidRun
  have hlast : valid (startB + interval * (k : Int),
      c * generateValue (startB + interval * (k : Int))) = true :=
    hvB _ (by rw [generateSamplesSum_succ]; simp)
  rw [← List.append_assoc, List.reverse_append]
  simp only [List.reverse_cons, List.reverse_nil, List.nil_append, List.cons_append,
    List.dropWhile_cons]
  rw [List.reverse_append]
  simp only [hlast, Bool.not_true, Bool.false_eq_true, if_false]
  have hchain : chainOldest interval valid (startB + interval * (k : Int))
      ((generateSamplesSum c generateValue startB interval k).reverse ++ A.reverse)
      = chainOldest interval valid startB A.reverse := by
    exact chainOldest_genSamples valid c generateValue interval k startB A.reverse
      (fun s hs => hvB s (by rw [generateSamplesSum_succ]; simp [hs]))
  rw [hchain]
  have hstop : chainOldest interval valid startB A.reverse = startB := by
    rcases hA with rfl | ⟨aLast, aInit, rfl, hbreak⟩
    · simp [chainOldest]
    · rw [List.reverse_append]
      simp only [List.reverse_cons, List.reverse_nil, List.nil_append, List.cons_append]
      rw [chainOldest_cons, if_neg hbreak]
  rw [hstop]
  have : (k : Int) = (k + 1 : Nat) - 1 := by push_cast; ring
  rw [← this]

/-- The recovery loop establishes the history invariants: starting from a
history satisfying them it can only produce one satisfying them, given that
the remote samples carry interval-aligned timestamps. -/
theorem initLoop_invariant (client : Int → Int → Except Unit (List (List (Int × ℚ))))
    (n : Nat) (generateValue : Int → ℚ) (oldestAllowed : Int)
    (hal : ∀ start stop m, client start stop = .ok m →
      ∀ s ∈ m.flatten, s.1 % writeInterval = 0) :
    ∀ (fuel : Nat) (stop : Int) (h : MetricHistory) (queries : Nat),
    histInvariant h → histAligned h →
    histInvariant (initLoop client n generateValue oldestAllowed fuel stop h queries).1 ∧
    histAligned (initLoop client n generateValue oldestAllowed fuel stop h queries).1 := by
  intro fuel
  induction fuel with
  | zero => intro stop h queries hinv halh; exact ⟨hinv, halh⟩
  | succ fuel ih =>
      intro stop h queries hinv halh
      rw [initLoop_succ]
      by_cases hstop : stop ≤ oldestAllowed
      · rw [if_pos hstop]
        exact ⟨hinv, halh⟩
      · rw [if_neg hstop]
        rcases hcr : client (max oldestAllowed (stop - 86400 + writeInterval)) stop with _ | m
        · dsimp only
          exact ⟨hinv, halh⟩
        · dsimp only
          have hsamples := hal _ _ m hcr
          rcases hfv : findValidRun writeInterval (sampleValid n generateValue) m.flatten
            with _ | run
          · dsimp only
            exact ⟨hinv, halh⟩
          · dsimp only
            have hfacts := findValidRun_facts (by decide : (0:Int) < writeInterval)
              (sampleValid n generateValue) m.flatten run.1 run.2 (by rw [hfv]) hsamples
            by_cases hz : h.queryMaxTime = 0
            · rw [if_pos hz]
              by_cases hstale : run.2 ≤ stop - 3600
              · rw [if_pos hstale]
                exact ⟨hinv, halh⟩
              · rw [if_neg hstale]
                have hinv' : histInvariant ⟨run.2, run.1, run.2⟩ :=
                  Or.inr ⟨hfacts.1, le_refl _⟩
                have hal' : histAligned ⟨run.2, run.1, run.2⟩ :=
                  ⟨hfacts.2.2, hfacts.2.1, hfacts.2.2⟩
                by_cases hcont : run.1 ≤ max oldestAllowed (stop - 86400 + writeInterval)
                · rw [if_pos hcont]
                  exact ih (stop - 86400) _ (queries + 1) hinv' hal'
                · rw [if_neg hcont]
                  exact ⟨hinv', hal'⟩
            · rw [if_neg hz]
              by_cases hadj : run.2 = h.queryMinTime - writeInterval
              · rw [if_pos hadj]
                have hmm : h.queryMinTime ≤ h.queryMaxTime ∧
                    h.queryMaxTime ≤ h.lastWrittenTimestamp := by
                  rcases hinv with ⟨_, _, h3⟩ | hh
                  · exact absurd h3 hz
                  · exact hh
                have hle : run.1 ≤ h.queryMinTime := by
                  have := hfacts.1
                  have hwi : (0:Int) < writeInterval := by decide
                  omega
                have hinv' : histInvariant ⟨h.lastWrittenTimestamp, run.1, h.queryMaxTime⟩ :=
                  Or.inr ⟨le_trans hle hmm.1, hmm.2⟩
                have hal' : histAligned ⟨h.lastWrittenTimestamp, run.1, h.queryMaxTime⟩ :=
                  ⟨halh.1, hfacts.2.1, halh.2.2⟩
                by_cases hcont : run.1 ≤ max oldestAllowed (stop - 86400 + writeInterval)
                · rw [if_pos hcont]
                  exact ih (stop - 86400) _ (queries + 1) hinv' hal'
                · rw [if_neg hcont]
                  exact ⟨hinv', hal'⟩
              · rw [if_neg hadj]
                exact ⟨hinv, halh⟩

/-! ## Claim theorems -/

/-- C3: in `Run`'s query phase every returned sample `(t, v)` is compared
against `NumSeries * generateValue(t)` with relative tolerance `1e-6`; each
comparison increments `query_result_checks_total` and each mismatch
additionally increments `query_result_checks_failed_total`; and `Run` returns
a non-nil error if and only if some write, query, or comparison failed — in
particular, when every comparison matches and all writes and queries succeed,
`Run` returns nil. -/
theorem run_comparison_and_error_iff (cfg : WriteReadSeriesTestConfig)
    (generateValue : Int → ℚ) (client : Client) (rnd : Int → Int → Int)
    (h : MetricHistory) (now : Int) :
    ((Run cfg generateValue client rnd h now).err = true ↔
      ((Run cfg generateValue client rnd h now).writesFailedCodes ≠ [] ∨
        (Run cfg generateValue client rnd h now).queriesFailed ≠ 0 ∨
        (Run cfg generateValue client rnd h now).checksFailed ≠ 0)) ∧
    (∀ samples : List (Int × ℚ),
      (countChecks cfg.NumSeries generateValue samples).1 = samples.length ∧
      (countChecks cfg.NumSeries generateValue samples).2 =
        (samples.filter (fun s =>
          !(sampleMatches ((cfg.NumSeries : ℚ) * generateValue s.1) s.2))).length) ∧
    (∀ expected actual : ℚ, sampleMatches expected actual = true ↔
      |actual - expected| ≤ (1 / 1000000) * max 1 |expected|) := by
  refine ⟨Run_err_iff cfg generateValue client rnd h now,
    countChecks_spec cfg.NumSeries generateValue, ?_⟩
  intro expected actual
  simp [sampleMatches, maxComparisonDelta]

/-- C6: `getQueryTimeRanges` fails — returning an error and empty range and
instant lists — when both `queryMinTime` and `queryMaxTime` are zero, or when
`queryMaxTime` is older than `now − MaxQueryAge`; and when the planner fails
this way inside `Run`, the query phase is skipped (no `Query` or `QueryRange`
issued) and no error is surfaced for that reason: `Run` errs only if some
write failed. -/
theorem getQueryTimeRanges_failure_skips_queries :
    (∀ (maxQueryAge : Int) (rnd : Int → Int → Int) (now : Int) (h : MetricHistory),
      (h.queryMinTime = 0 ∧ h.queryMaxTime = 0 →
        getQueryTimeRanges maxQueryAge rnd now h = ⟨[], [], some .noHistory⟩) ∧
      (¬(h.queryMinTime = 0 ∧ h.queryMaxTime = 0) →
        h.queryMaxTime < now - maxQueryAge →
        getQueryTimeRanges maxQueryAge rnd now h = ⟨[], [], some .historyStale⟩)) ∧
    (∀ (cfg : WriteReadSeriesTestConfig) (generateValue : Int → ℚ) (client : Client)
      (rnd : Int → Int → Int) (h : MetricHistory) (now : Int),
      (getQueryTimeRanges cfg.MaxQueryAge rnd now
        (writePhase client.writeResp ⟨h, false, 0, [], [], false⟩
          (writePlan h.lastWrittenTimestamp now writeInterval)).hist).err ≠ none →
      (Run cfg generateValue client rnd h now).queriesTotal = 0 ∧
      (Run cfg generateValue client rnd h now).rangeCalls = [] ∧
      (Run cfg generateValue client rnd h now).instantCalls = [] ∧
      ((Run cfg generateValue client rnd h now).err = true ↔
        (Run cfg generateValue client rnd h now).writesFailedCodes ≠ [])) := by
  constructor
  · intro maxQueryAge rnd now h
    constructor
    · intro hz
      unfold getQueryTimeRanges
      rw [if_pos hz]
    · intro hnz hstale
      unfold getQueryTimeRanges
      rw [if_neg hnz, if_pos hstale]
  · intro cfg generateValue client rnd h now hperr
    unfold Run
    dsimp only
    split
    · refine ⟨rfl, rfl, rfl, ?_⟩
      simp
    · rcases hp : (getQueryTimeRanges cfg.MaxQueryAge rnd now
          (writePhase client.writeResp ⟨h, false, 0, [], [], false⟩
            (writePlan h.lastWrittenTimestamp now writeInterval)).hist).err with _ | pe
      · exact absurd hp hperr
      · dsimp only
        refine ⟨rfl, rfl, rfl, ?_⟩
        simp

/-- C6 at concrete inputs: a zero history errs with empty outputs; a stale
history errs with empty outputs; and a `Run` at `now = 5` whose single write
at the aligned target `0` succeeds leaves the zero-valued query window, so
the planner fails and the query phase is skipped with `Run` returning nil. -/
theorem getQueryTimeRanges_failure_skips_queries_witness :
    getQueryTimeRanges 172800 rndLow 864000 ⟨0, 0, 0⟩ = ⟨[], [], some .noHistory⟩ ∧
    getQueryTimeRanges 172800 rndLow 864000 ⟨691140, 691140, 691140⟩
      = ⟨[], [], some .historyStale⟩ ∧
    (Run cfgScenario genOne (constClient 200) rndLow MetricHistory.zero 5).queriesTotal = 0 ∧
    (Run cfgScenario genOne (constClient 200) rndLow MetricHistory.zero 5).rangeCalls = [] ∧
    (Run cfgScenario genOne (constClient 200) rndLow MetricHistory.zero 5).instantCalls = [] ∧
    ((Run cfgScenario genOne (constClient 200) rndLow MetricHistory.zero 5).err = true ↔
      (Run cfgScenario genOne (constClient 200) rndLow MetricHistory.zero 5).writesFailedCodes
        ≠ []) := by
  refine ⟨(getQueryTimeRanges_failure_skips_queries.1 172800 rndLow 864000 ⟨0, 0, 0⟩).1
      (by exact ⟨rfl, rfl⟩),
    (getQueryTimeRanges_failure_skips_queries.1 172800 rndLow 864000
      ⟨691140, 691140, 691140⟩).2 (by decide) (by decide), ?_⟩
  exact getQueryTimeRanges_failure_skips_queries.2 cfgScenario genOne (constClient 200)
    rndLow MetricHistory.zero 5 (by decide)

/-- C10: when `Run`'s query phase executes, every range and every instant
produced by the planner is executed exactly twice — two `QueryRange` calls
per planned range and two `Query` calls per planned instant — so
`queries_total` is twice the number of planned queries; on a first tick the
planner yields 2 ranges and 2 instants, giving 4 `QueryRange` calls, 4
`Query` calls and `queries_total = 8`. -/
theorem run_executes_each_planned_query_twice (cfg : WriteReadSeriesTestConfig)
    (generateValue : Int → ℚ) (client : Client) (rnd : Int → Int → Int)
    (h : MetricHistory) (now : Int)
    (hfatal : (writePhase client.writeResp ⟨h, false, 0, [], [], false⟩
        (writePlan h.lastWrittenTimestamp now writeInterval)).fatal = false)
    (hsucc : (writePhase client.writeResp ⟨h, false, 0, [], [], false⟩
        (writePlan h.lastWrittenTimestamp now writeInterval)).hadSuccess = true)
    (hplan : (getQueryTimeRanges cfg.MaxQueryAge rnd now
        (writePhase client.writeResp ⟨h, false, 0, [], [], false⟩
          (writePlan h.lastWrittenTimestamp now writeInterval)).hist).err = none) :
    (Run cfg generateValue client rnd h now).rangeCalls
      = (getQueryTimeRanges cfg.MaxQueryAge rnd now
          (writePhase client.writeResp ⟨h, false, 0, [], [], false⟩
            (writePlan h.lastWrittenTimestamp now writeInterval)).hist).ranges.flatMap
          (fun r => [r, r]) ∧
    (Run cfg generateValue client rnd h now).instantCalls
      = (getQueryTimeRanges cfg.MaxQueryAge rnd now
          (writePhase client.writeResp ⟨h, false, 0, [], [], false⟩
            (writePlan h.lastWrittenTimestamp now writeInterval)).hist).instants.flatMap
          (fun i => [i, i]) ∧
    (Run cfg generateValue client rnd h now).queriesTotal
      = 2 * ((getQueryTimeRanges cfg.MaxQueryAge rnd now
            (writePhase client.writeResp ⟨h, false, 0, [], [], false⟩
              (writePlan h.lastWrittenTimestamp now writeInterval)).hist).ranges.length
          + (getQueryTimeRanges cfg.MaxQueryAge rnd now
            (writePhase client.writeResp ⟨h, false, 0, [], [], false⟩
              (writePlan h.lastWrittenTimestamp now writeInterval)).hist).instants.length) := by
  unfold Run
  dsimp only
  rw [hfatal, hsucc]
  simp only [Bool.not_true, Bool.or_false, Bool.false_eq_true, if_false]
  rw [hplan]
  dsimp only
  have hq := queryPhase_facts cfg.NumSeries generateValue client
    (getQueryTimeRanges cfg.MaxQueryAge rnd now
      (writePhase client.writeResp ⟨h, false, 0, [], [], false⟩
        (writePlan h.lastWrittenTimestamp now writeInterval)).hist).ranges
    (getQueryTimeRanges cfg.MaxQueryAge rnd now
      (writePhase client.writeResp ⟨h, false, 0, [], [], false⟩
        (writePlan h.lastWrittenTimestamp now writeInterval)).hist).instants
  exact ⟨hq.2.1, hq.2.2.1, hq.1⟩

/-- C10 at the first-tick scenario: a fresh history at `now = 1000` with all
writes 2xx and empty query results yields the planner's 2 ranges and 2
instants, hence 4 `QueryRange` calls, 4 `Query` calls and
`queries_total = 8`. -/
theorem run_executes_each_planned_query_twice_witness :
    (Run cfgScenario genOne (constClient 200) rndLow MetricHistory.zero 1000).rangeCalls
        = [(1000, 1000), (1000, 1000), (1000, 1000), (1000, 1000)] ∧
    (Run cfgScenario genOne (constClient 200) rndLow MetricHistory.zero 1000).instantCalls
        = [1000, 1000, 1000, 1000] ∧
    (Run cfgScenario genOne (constClient 200) rndLow MetricHistory.zero 1000).queriesTotal
        = 8 := by
  have hmain := run_executes_each_planned_query_twice cfgScenario genOne (constClient 200)
    rndLow MetricHistory.zero 1000 (by decide) (by decide) (by decide)
  refine ⟨?_, ?_, ?_⟩
  · rw [hmain.1]
    decide
  · rw [hmain.2.1]
    decide
  · rw [hmain.2.2]
    decide

theorem classifyStatus_success {code : Nat} (h1 : 200 ≤ code) (h2 : code < 300) :
    classifyStatus code = .success := by
  unfold classifyStatus
  rw [if_pos ⟨h1, h2⟩]

theorem classifyStatus_fail4xx {code : Nat} (h1 : 400 ≤ code) (h2 : code < 500) :
    classifyStatus code = .fail4xx := by
  unfold classifyStatus
  rw [if_neg (by omega), if_pos ⟨h1, h2⟩]

theorem classifyStatus_fatal {code : Nat} (h : 500 ≤ code ∨ code = 0) :
    classifyStatus code = .fatal := by
  unfold classifyStatus
  rw [if_neg (by omega), if_neg (by omega)]

/-- C2: for every write attempt in `Run`'s write phase — a 4xx response
counts the failure under its status code, advances `lastWrittenTimestamp` to
the attempted timestamp (leaving the query window untouched) and processing
continues with the next timestamp; a 5xx response or transport error counts
the failure, leaves the history (including `lastWrittenTimestamp`) unchanged,
aborts the write phase, skips the query phase entirely — no `Query` or
`QueryRange` issued — and makes `Run` return a non-nil error. -/
theorem run_write_failure_classification :
    (∀ (resp : Int → Nat) (s : WState) (ts : Int) (rest : List Int),
      400 ≤ resp ts → resp ts < 500 →
      writeStep resp s ts = { s with
          hist := ⟨ts, s.hist.queryMinTime, s.hist.queryMaxTime⟩
          writesTotal := s.writesTotal + 1
          failedCodes := s.failedCodes ++ [resp ts]
          calls := s.calls ++ [ts] } ∧
      (s.fatal = false →
        writePhase resp s (ts :: rest) = writePhase resp (writeStep resp s ts) rest)) ∧
    (∀ (resp : Int → Nat) (s : WState) (ts : Int) (rest : List Int),
      500 ≤ resp ts ∨ resp ts = 0 →
      writeStep resp s ts = { s with
          writesTotal := s.writesTotal + 1
          failedCodes := s.failedCodes ++ [resp ts]
          calls := s.calls ++ [ts]
          fatal := true } ∧
      (writeStep resp s ts).hist = s.hist ∧
      writePhase resp s (ts :: rest) = writeStep resp s ts) ∧
    (∀ (cfg : WriteReadSeriesTestConfig) (generateValue : Int → ℚ) (client : Client)
      (rnd : Int → Int → Int) (h : MetricHistory) (now : Int) (pre : List Int) (ts : Int)
      (rest : List Int),
      writePlan h.lastWrittenTimestamp now writeInterval = pre ++ ts :: rest →
      (∀ t ∈ pre, classifyStatus (client.writeResp t) ≠ .fatal) →
      (500 ≤ client.writeResp ts ∨ client.writeResp ts = 0) →
      (Run cfg generateValue client rnd h now).queriesTotal = 0 ∧
      (Run cfg generateValue client rnd h now).rangeCalls = [] ∧
      (Run cfg generateValue client rnd h now).instantCalls = [] ∧
      (Run cfg generateValue client rnd h now).err = true ∧
      (Run cfg generateValue client rnd h now).writeCalls = pre ++ [ts]) := by
  refine ⟨?_, ?_, ?_⟩
  · intro resp s ts rest h1 h2
    have hc := classifyStatus_fail4xx h1 h2
    refine ⟨writeStep_fail4xx resp s ts hc, ?_⟩
    intro hs
    have hflag : (writeStep resp s ts).fatal = false := by
      rw [writeStep_fatal_flag, hs, hc]
      simp
    rw [writePhase_cons, hflag]
    simp
  · intro resp s ts rest hcode
    have hc := classifyStatus_fatal hcode
    have heq := writeStep_fatal resp s ts hc
    have hflag : (writeStep resp s ts).fatal = true := by
      rw [writeStep_fatal_flag, hc]
      simp
    refine ⟨heq, by rw [heq], ?_⟩
    rw [writePhase_cons, hflag]
    simp
  · intro cfg generateValue client rnd h now pre ts rest hplan hpre hcode
    have hc := classifyStatus_fatal hcode
    have hsplit := writePhase_fatal_split client.writeResp pre ts rest
      ⟨h, false, 0, [], [], false⟩ rfl hpre hc
    have hprefacts := writePhase_no_fatal client.writeResp pre
      ⟨h, false, 0, [], [], false⟩ rfl hpre
    have hflag : (writePhase client.writeResp ⟨h, false, 0, [], [], false⟩
        (writePlan h.lastWrittenTimestamp now writeInterval)).fatal = true := by
      rw [hplan, hsplit, writeStep_fatal_flag, hprefacts.2.2, hc]
      simp
    have hfailed : (writePhase client.writeResp ⟨h, false, 0, [], [], false⟩
        (writePlan h.lastWrittenTimestamp now writeInterval)).failedCodes
        = (writePhase client.writeResp ⟨h, false, 0, [], [], false⟩ pre).failedCodes
          ++ [client.writeResp ts] := by
      rw [hplan, hsplit, writeStep_fatal _ _ _ hc]
    have hcalls : (writePhase client.writeResp ⟨h, false, 0, [], [], false⟩
        (writePlan h.lastWrittenTimestamp now writeInterval)).calls = pre ++ [ts] := by
      rw [hplan, hsplit, writeStep_fatal _ _ _ hc]
      dsimp only
      rw [hprefacts.1]
      simp
    unfold Run
    dsimp only
    rw [hflag]
    simp only [Bool.true_or, if_true]
    refine ⟨trivial, trivial, trivial, ?_, hcalls⟩
    rw [hfailed]
    simp

/-- C2 at concrete inputs: a 400 response at timestamp 960 advances
`lastWrittenTimestamp` and continues; the in-repo 5xx scenario
(`lastWrittenTimestamp = 940`, `now = 1000`, every write returning 500) stops
after one write, issues no queries, and `Run` errs. -/
theorem run_write_failure_classification_witness :
    (writeStep (fun _ => 400) ⟨⟨940, 0, 0⟩, false, 0, [], [], false⟩ 960
      = ⟨⟨960, 0, 0⟩, false, 1, [400], [960], false⟩) ∧
    (Run cfgScenario genOne (constClient 500) rndLow ⟨940, 0, 0⟩ 1000).queriesTotal = 0 ∧
    (Run cfgScenario genOne (constClient 500) rndLow ⟨940, 0, 0⟩ 1000).rangeCalls = [] ∧
    (Run cfgScenario genOne (constClient 500) rndLow ⟨940, 0, 0⟩ 1000).instantCalls = [] ∧
    (Run cfgScenario genOne (constClient 500) rndLow ⟨940, 0, 0⟩ 1000).err = true ∧
    (Run cfgScenario genOne (constClient 500) rndLow ⟨940, 0, 0⟩ 1000).writeCalls
      = [] ++ [960] := by
  have h4 := (run_write_failure_classification.1 (fun _ => 400)
    ⟨⟨940, 0, 0⟩, false, 0, [], [], false⟩ 960 [] (by decide) (by decide)).1
  have h5 := run_write_failure_classification.2.2 cfgScenario genOne (constClient 500)
    rndLow ⟨940, 0, 0⟩ 1000 [] 960 [980, 1000] (by decide)
    (by intro t ht; cases ht) (by decide)
  exact ⟨h4, h5⟩

/-- C1 (amended): for every `Run(ctx, now)` in which no write attempt draws a
fatal (5xx/transport) response: the write target is
`floor(now / writeInterval) * writeInterval`; with a zero
`lastWrittenTimestamp` exactly one point is written, at the target; otherwise
one point is written at every `writeInterval`-aligned timestamp in
`(lastWrittenTimestamp, target]`; the writes are issued in strictly
increasing timestamp order and `writes_total` is incremented once per
attempted write. -/
theorem run_write_backfill_schedule (cfg : WriteReadSeriesTestConfig)
    (generateValue : Int → ℚ) (client : Client) (rnd : Int → Int → Int)
    (h : MetricHistory) (now : Int)
    (hok : ∀ ts ∈ writePlan h.lastWrittenTimestamp now writeInterval,
      classifyStatus (client.writeResp ts) ≠ .fatal) :
    alignTimestampToInterval now writeInterval = writeInterval * (now / writeInterval) ∧
    (Run cfg generateValue client rnd h now).writeCalls
      = writePlan h.lastWrittenTimestamp now writeInterval ∧
    (h.lastWrittenTimestamp = 0 →
      (Run cfg generateValue client rnd h now).writeCalls
        = [alignTimestampToInterval now writeInterval]) ∧
    (h.lastWrittenTimestamp ≠ 0 → ∀ t : Int,
      (t ∈ (Run cfg generateValue client rnd h now).writeCalls ↔
        (t % writeInterval = 0 ∧ h.lastWrittenTimestamp < t ∧
          t ≤ alignTimestampToInterval now writeInterval))) ∧
    (Run cfg generateValue client rnd h now).writeCalls.Pairwise (· < ·) ∧
    (Run cfg generateValue client rnd h now).writesTotal
      = (Run cfg generateValue client rnd h now).writeCalls.length := by
  have hwrite := Run_write_side cfg generateValue client rnd h now
  have hphase := writePhase_no_fatal client.writeResp
    (writePlan h.lastWrittenTimestamp now writeInterval)
    ⟨h, false, 0, [], [], false⟩ rfl hok
  have hcalls : (Run cfg generateValue client rnd h now).writeCalls
      = writePlan h.lastWrittenTimestamp now writeInterval := by
    rw [hwrite.2.2.2, hphase.1]
    simp
  refine ⟨rfl, hcalls, ?_, ?_, ?_, ?_⟩
  · intro hz
    rw [hcalls, hz, writePlan_of_zero]
  · intro hnz t
    rw [hcalls]
    unfold writePlan
    rw [if_neg hnz]
    exact backfillTimestamps_mem (by decide) h.lastWrittenTimestamp _ t
  · rw [hcalls]
    exact writePlan_pairwise (by decide) h.lastWrittenTimestamp now
  · rw [hcalls, hwrite.2.1, hphase.2.1]
    simp

/-- C1 (amended) at the in-repo backfill scenario: `lastWrittenTimestamp =
940`, `now = 1000`, all writes 2xx — writes are attempted at exactly 960,
980, 1000 in increasing order and `writes_total = 3`. -/
theorem run_write_backfill_schedule_witness :
    (Run cfgScenario genOne (constClient 200) rndLow ⟨940, 0, 0⟩ 1000).writeCalls
      = writePlan 940 1000 writeInterval ∧
    (Run cfgScenario genOne (constClient 200) rndLow ⟨940, 0, 0⟩ 1000).writeCalls.Pairwise
      (· < ·) ∧
    (Run cfgScenario genOne (constClient 200) rndLow ⟨940, 0, 0⟩ 1000).writesTotal
      = (Run cfgScenario genOne (constClient 200) rndLow ⟨940, 0, 0⟩ 1000).writeCalls.length ∧
    writePlan 940 1000 writeInterval = [960, 980, 1000] := by
  have hmain := run_write_backfill_schedule cfgScenario genOne (constClient 200) rndLow
    ⟨940, 0, 0⟩ 1000 (by decide)
  exact ⟨hmain.2.1, hmain.2.2.2.2.1, hmain.2.2.2.2.2, by decide⟩

/-- C1 is false as universally stated: with `lastWrittenTimestamp = 940` and
`now = 1000`, a 500 response aborts the write phase after the first attempt
(the in-repo test `should stop remote writing on 5xx error` asserts exactly
one `WriteSeries` call here), so the aligned timestamp 980 of
`(940, 1000]` is never written. -/
theorem run_write_backfill_schedule_counterexample :
    (Run cfgScenario genOne (constClient 500) rndLow ⟨940, 0, 0⟩ 1000).writeCalls = [960] ∧
    ((980 : Int) % writeInterval = 0 ∧ (940 : Int) < 980 ∧
      (980 : Int) ≤ alignTimestampToInterval 1000 writeInterval) ∧
    980 ∉ (Run cfgScenario genOne (constClient 500) rndLow ⟨940, 0, 0⟩ 1000).writeCalls := by
  decide

/-- C8 (amended): on a write returning HTTP 2xx during `Run`,
`lastWrittenTimestamp` advances to the just-written timestamp; `queryMaxTime`
is set to the just-written timestamp, and `queryMinTime` too when it was
still zero (the first successful write of a tick started without a query
window); so after a backfill tick from `lastWrittenTimestamp = 940` to
`now = 1000`, `queryMinTime` equals the first written timestamp `960` (and
`queryMaxTime` the last, `1000`). -/
theorem writeStep_success_updates (resp : Int → Nat) (s : WState) (ts : Int)
    (h1 : 200 ≤ resp ts) (h2 : resp ts < 300) :
    (writeStep resp s ts).hist.lastWrittenTimestamp = ts ∧
    (writeStep resp s ts).hist.queryMaxTime = ts ∧
    (writeStep resp s ts).hist.queryMinTime
      = (if s.hist.queryMinTime = 0 then ts else s.hist.queryMinTime) ∧
    (Run cfgScenario genOne (constClient 200) rndLow ⟨940, 0, 0⟩ 1000).hist
      = ⟨1000, 960, 1000⟩ := by
  rw [writeStep_success resp s ts (classifyStatus_success h1 h2)]
  exact ⟨rfl, rfl, rfl, by decide⟩

/-- C8 (amended) at concrete inputs: a 2xx write at timestamp 960 from the
`⟨940, 0, 0⟩` history records `lastWrittenTimestamp = queryMaxTime =
queryMinTime = 960`, and the full backfill tick ends with the history
`⟨1000, 960, 1000⟩`. -/
theorem writeStep_success_updates_witness :
    (writeStep (fun _ => 200) ⟨⟨940, 0, 0⟩, false, 0, [], [], false⟩ 960).hist.lastWrittenTimestamp
        = 960 ∧
    (writeStep (fun _ => 200) ⟨⟨940, 0, 0⟩, false, 0, [], [], false⟩ 960).hist.queryMaxTime
        = 960 ∧
    (writeStep (fun _ => 200) ⟨⟨940, 0, 0⟩, false, 0, [], [], false⟩ 960).hist.queryMinTime
        = (if (0 : Int) = 0 then 960 else 0) ∧
    (Run cfgScenario genOne (constClient 200) rndLow ⟨940, 0, 0⟩ 1000).hist
        = ⟨1000, 960, 1000⟩ :=
  writeStep_success_updates (fun _ => 200) ⟨⟨940, 0, 0⟩, false, 0, [], [], false⟩ 960
    (by decide) (by decide)

/-- C8 is false as stated: under the spec's literal words (`queryMinTime ←
queryMaxTime ← target` on the first successful write, `RunSpecLiteral`), the
backfill tick from `lastWrittenTimestamp = 940` at `now = 1000` ends with
`queryMinTime = 1000` and consequently never issues the `QueryRange(960,
1000)` call that the in-repo backfill test asserts; the model that satisfies
the test records `queryMinTime = 960 ≠ 1000` and does issue that call. -/
theorem writeStep_success_updates_counterexample :
    (RunSpecLiteral cfgScenario genOne (constClient 200) rndLow ⟨940, 0, 0⟩ 1000).hist.queryMinTime
        = 1000 ∧
    (960, 1000) ∉
      (RunSpecLiteral cfgScenario genOne (constClient 200) rndLow ⟨940, 0, 0⟩ 1000).rangeCalls ∧
    (Run cfgScenario genOne (constClient 200) rndLow ⟨940, 0, 0⟩ 1000).hist.queryMinTime
        = 960 ∧
    (960, 1000) ∈
      (Run cfgScenario genOne (constClient 200) rndLow ⟨940, 0, 0⟩ 1000).rangeCalls ∧
    (960 : Int) ≠ 1000 := by
  decide

/-- C9 (amended): for every successful `getQueryTimeRanges` call whose
`queryMaxTime` is newer than `now − 1h`, the "last 1h" window — the
intersection of `[now − 1h, now]` with `[max(queryMinTime, now −
MaxQueryAge), queryMaxTime]` — is present in the returned ranges (as the
first one); when `queryMaxTime` is at least one hour old the planner emits no
"last 1h" entry. -/
theorem getQueryTimeRanges_last1h_present (maxQueryAge : Int) (rnd : Int → Int → Int)
    (now : Int) (h : MetricHistory)
    (hsucc : (getQueryTimeRanges maxQueryAge rnd now h).err = none)
    (hrecent : now - 3600 < h.queryMaxTime) :
    (getQueryTimeRanges maxQueryAge rnd now h).ranges.head?
      = some (max (max h.queryMinTime (now - maxQueryAge)) (now - 3600),
          min h.queryMaxTime now) ∧
    (max (max h.queryMinTime (now - maxQueryAge)) (now - 3600), min h.queryMaxTime now)
      ∈ (getQueryTimeRanges maxQueryAge rnd now h).ranges := by
  unfold getQueryTimeRanges at hsucc ⊢
  by_cases hz : h.queryMinTime = 0 ∧ h.queryMaxTime = 0
  · rw [if_pos hz] at hsucc
    simp at hsucc
  · rw [if_neg hz] at hsucc ⊢
    by_cases hstale : h.queryMaxTime < now - maxQueryAge
    · rw [if_pos hstale] at hsucc
      simp at hsucc
    · rw [if_neg hstale]
      dsimp only
      rw [if_pos hrecent]
      simp

/-- C9 (amended) at the in-repo `min and max query time are within the last
1h` inputs: the window `[now − 30m, now − 1m]` is the first returned range. -/
theorem getQueryTimeRanges_last1h_present_witness :
    (getQueryTimeRanges 172800 rndLow 864000 ⟨0, 862200, 863940⟩).ranges.head?
      = some (max (max 862200 (864000 - 172800)) (864000 - 3600), min 863940 864000) ∧
    (max (max 862200 (864000 - 172800)) (864000 - 3600), min 863940 864000)
      ∈ (getQueryTimeRanges 172800 rndLow 864000 ⟨0, 862200, 863940⟩).ranges :=
  getQueryTimeRanges_last1h_present 172800 rndLow 864000 ⟨0, 862200, 863940⟩
    (by decide) (by decide)

/-- C9 is false as stated: with `queryMinTime = now − 90m` and `queryMaxTime
= now − 80m` (the in-repo `min and max query time are within the last 2h`
case) the planner succeeds, yet the intersection of `[now − 1h, now]` with
`[queryMinTime, queryMaxTime]` is not among the returned ranges — only the
"last 24h" window and the random window are emitted. -/
theorem getQueryTimeRanges_last1h_present_counterexample :
    (getQueryTimeRanges 172800 rndLow 864000 ⟨0, 858600, 859200⟩).err = none ∧
    (getQueryTimeRanges 172800 rndLow 864000 ⟨0, 858600, 859200⟩).ranges
      = [(858600, 859200), (858600, 858600)] ∧
    (max (858600 : Int) (864000 - 3600), min (859200 : Int) 864000)
      ∉ (getQueryTimeRanges 172800 rndLow 864000 ⟨0, 858600, 859200⟩).ranges := by
  decide

/-- C5: `Init` never returns a non-nil error because a range query failed —
it always succeeds; if the very first chunk's query fails the whole history
is left zero (one query issued); if a later chunk's query fails the loop
stops there and the history accumulated from the earlier chunks is preserved
unchanged. -/
theorem Init_survives_query_failure (cfg : WriteReadSeriesTestConfig)
    (generateValue : Int → ℚ)
    (client : Int → Int → Except Unit (List (List (Int × ℚ)))) (now : Int) :
    (0 < cfg.MaxQueryAge →
      client (max (now - cfg.MaxQueryAge) (now - 86400 + writeInterval)) now = .error () →
      Init cfg generateValue client now = (MetricHistory.zero, 1)) ∧
    (∀ (fuel : Nat) (stop : Int) (h : MetricHistory) (queries : Nat),
      now - cfg.MaxQueryAge < stop →
      client (max (now - cfg.MaxQueryAge) (stop - 86400 + writeInterval)) stop = .error () →
      initLoop client cfg.NumSeries generateValue (now - cfg.MaxQueryAge)
          (fuel + 1) stop h queries
        = (h, queries + 1)) := by
  constructor
  · intro hage herr
    unfold Init
    dsimp only
    exact initLoop_query_error client cfg.NumSeries generateValue (now - cfg.MaxQueryAge)
      _ now MetricHistory.zero 0 (by omega) herr
  · intro fuel stop h queries hstop herr
    exact initLoop_query_error client cfg.NumSeries generateValue _ fuel stop h
      queries hstop herr

/-- C5 at concrete inputs: with every query failing, `Init` leaves the zero
history after a single query; and a loop state carrying the history
recovered from the first chunk is returned unchanged when the second chunk's
query fails. -/
theorem Init_survives_query_failure_witness :
    Init ⟨2, 259200⟩ genOne (fun _ _ => .error ()) 864000 = (MetricHistory.zero, 1) ∧
    initLoop (fun _ _ => .error ()) 2 genOne (864000 - 259200) (3 + 1) (864000 - 86400)
        ⟨863940, 777620, 863940⟩ 1 = (⟨863940, 777620, 863940⟩, 1 + 1) := by
  refine ⟨(Init_survives_query_failure ⟨2, 259200⟩ genOne (fun _ _ => .error ()) 864000).1
      (by decide) rfl,
    (Init_survives_query_failure ⟨2, 259200⟩ genOne (fun _ _ => .error ()) 864000).2 3
      (864000 - 86400) ⟨863940, 777620, 863940⟩ 1 (by decide) rfl⟩

/-- C7: after `Init` (which starts from the zero history) and after every
`Run` at a nonnegative clock: either `lastWrittenTimestamp`, `queryMinTime`
and `queryMaxTime` are all zero, or `queryMinTime ≤ queryMaxTime ≤
lastWrittenTimestamp`; every recorded timestamp is a multiple of
`writeInterval` (for `Init`, granted the remote samples carry step-aligned
timestamps); and `lastWrittenTimestamp` is monotonically non-decreasing
across `Run` calls — in particular a failed write never rolls it back. -/
theorem run_init_history_invariants :
    (∀ (cfg : WriteReadSeriesTestConfig) (generateValue : Int → ℚ) (client : Client)
      (rnd : Int → Int → Int) (h : MetricHistory) (now : Int),
      0 ≤ now → histInvariant h → histAligned h →
      histInvariant (Run cfg generateValue client rnd h now).hist ∧
      histAligned (Run cfg generateValue client rnd h now).hist ∧
      h.lastWrittenTimestamp
        ≤ (Run cfg generateValue client rnd h now).hist.lastWrittenTimestamp) ∧
    (∀ (cfg : WriteReadSeriesTestConfig) (generateValue : Int → ℚ)
      (client : Int → Int → Except Unit (List (List (Int × ℚ)))) (now : Int),
      (∀ start stop m, client start stop = .ok m →
        ∀ s ∈ m.flatten, s.1 % writeInterval = 0) →
      histInvariant (Init cfg generateValue client now).1 ∧
      histAligned (Init cfg generateValue client now).1) := by
  constructor
  · intro cfg generateValue client rnd h now hnow hinv hal
    have hside := (Run_write_side cfg generateValue client rnd h now).1
    rw [hside]
    have hplanmem : ∀ t ∈ writePlan h.lastWrittenTimestamp now writeInterval,
        t % writeInterval = 0 ∧ h.lastWrittenTimestamp ≤ t ∧
        h.queryMinTime ≤ t ∧ h.queryMaxTime ≤ t := by
      intro t ht
      obtain ⟨hmod, hlwt, hle⟩ := writePlan_mem (by decide) hnow ht
      rcases hinv with ⟨h1, h2, h3⟩ | ⟨h1, h2⟩
      · exact ⟨hmod, hlwt, by omega, by omega⟩
      · exact ⟨hmod, hlwt, by omega, by omega⟩
    have hpw : (writePlan h.lastWrittenTimestamp now writeInterval).Pairwise (· ≤ ·) :=
      (writePlan_pairwise (by decide) _ _).imp le_of_lt
    exact writePhase_invariant client.writeResp _ ⟨h, false, 0, [], [], false⟩
      hinv hal hplanmem hpw
  · intro cfg generateValue client now hal
    unfold Init
    dsimp only
    exact initLoop_invariant client cfg.NumSeries generateValue _ hal _ now
      MetricHistory.zero 0 (Or.inl ⟨rfl, rfl, rfl⟩) ⟨rfl, rfl, rfl⟩

/-- C7 at concrete inputs: the first-tick `Run` from the zero history at
`now = 1000` preserves the invariants and does not decrease
`lastWrittenTimestamp`; an `Init` whose queries return empty matrices keeps
an invariant-satisfying (zero) history. -/
theorem run_init_history_invariants_witness :
    (histInvariant (Run cfgScenario genOne (constClient 200) rndLow
        MetricHistory.zero 1000).hist ∧
      histAligned (Run cfgScenario genOne (constClient 200) rndLow
        MetricHistory.zero 1000).hist ∧
      MetricHistory.zero.lastWrittenTimestamp
        ≤ (Run cfgScenario genOne (constClient 200) rndLow
            MetricHistory.zero 1000).hist.lastWrittenTimestamp) ∧
    (histInvariant (Init ⟨2, 259200⟩ genOne (fun _ _ => .ok []) 864000).1 ∧
      histAligned (Init ⟨2, 259200⟩ genOne (fun _ _ => .ok []) 864000).1) := by
  refine ⟨run_init_history_invariants.1 cfgScenario genOne (constClient 200) rndLow
      MetricHistory.zero 1000 (by decide) (Or.inl ⟨rfl, rfl, rfl⟩) ⟨rfl, rfl, rfl⟩,
    run_init_history_invariants.2 ⟨2, 259200⟩ genOne (fun _ _ => .ok []) 864000 ?_⟩
  intro start stop m hm s hs
  cases hm
  simp at hs

/-- C4: during `Init` a returned sample at time `t` is valid iff
`round(value / generateValue(t))` equals the configured `NumSeries`; and a
cardinality change inside the most recent 24 h chunk clips the recovered
window past it: when that chunk carries sums of `N − 1` series from its start
`now − 24h + writeInterval` through `now − 67m` (4119 samples) and sums of
`N` series from `now − 67m + writeInterval` through `now − 1m` (198 samples),
`Init` recovers `queryMinTime = now − 67m + writeInterval = now − 4000` and
`queryMaxTime = lastWrittenTimestamp = now − 1m`, the latest valid sample
timestamp, issuing a single range query. -/
theorem Init_cardinality_change (N : Nat) (generateValue : Int → ℚ)
    (hgen : ∀ t, generateValue t ≠ 0) (now : Int)
    (client : Int → Int → Except Unit (List (List (Int × ℚ))))
    (hc : client (now - 86380) now
      = .ok [generateSamplesSum ((N : ℚ) - 1) generateValue (now - 86380) writeInterval 4119
          ++ generateSamplesSum (N : ℚ) generateValue (now - 4000) writeInterval 198]) :
    (∀ (t : Int) (v : ℚ), sampleValid N generateValue (t, v) = true ↔
      round (v / generateValue t) = (N : Int)) ∧
    Init ⟨N, 259200⟩ generateValue client now
      = (⟨now - 60, now - 4000, now - 60⟩, 1) := by
  constructor
  · intro t v
    simp [sampleValid]
  · have hvB : ∀ s ∈ generateSamplesSum (N : ℚ) generateValue (now - 4000) writeInterval 198,
        sampleValid N generateValue s = true := by
      intro s hs
      unfold generateSamplesSum at hs
      rw [List.mem_map] at hs
      obtain ⟨t, ht, rfl⟩ := hs
      unfold sampleValid
      dsimp only
      rw [mul_div_cancel_right₀ _ (hgen t)]
      simp
    have hlastA : ∀ t0 : Int, ¬(sampleValid N generateValue
        (t0, ((N : ℚ) - 1) * generateValue t0) = true ∧
        (t0, ((N : ℚ) - 1) * generateValue t0).1 = now - 4000 - writeInterval) := by
      intro t0 hcontra
      have hval := hcontra.1
      unfold sampleValid at hval
      dsimp only at hval
      rw [mul_div_cancel_right₀ _ (hgen t0)] at hval
      have hround : round ((N : ℚ) - 1) = (N : Int) - 1 := by
        rw [show ((N : ℚ) - 1) = (((N : Int) - 1 : Int) : ℚ) by push_cast; ring,
          round_intCast]
      rw [decide_eq_true_eq, hround] at hval
      omega
    have hAsplit := generateSamplesSum_succ ((N : ℚ) - 1) generateValue
      (now - 86380) writeInterval 4118
    have hfv := findValidRun_append writeInterval (sampleValid N generateValue)
      (generateSamplesSum ((N : ℚ) - 1) generateValue (now - 86380) writeInterval 4119)
      (N : ℚ) generateValue (now - 4000) 198 (by norm_num) hvB
      (Or.inr ⟨(now - 86380 + writeInterval * ((4118 : Nat) : Int),
          ((N : ℚ) - 1) * generateValue (now - 86380 + writeInterval * ((4118 : Nat) : Int))),
        generateSamplesSum ((N : ℚ) - 1) generateValue (now - 86380) writeInterval 4118,
        by rw [show (4119 : Nat) = 4118 + 1 by norm_num, hAsplit],
        by
          have := hlastA (now - 86380 + writeInterval * ((4118 : Nat) : Int))
          intro hcontra
          exact this ⟨hcontra.1, by
            unfold writeInterval
            dsimp only
            push_cast
            omega⟩⟩)
    have hlatest : now - 4000 + writeInterval * (((198 : Nat) : Int) - 1) = now - 60 := by
      unfold writeInterval
      push_cast
      omega
    rw [hlatest] at hfv
    unfold Init
    dsimp only
    have hfuel : (now - (now - (259200 : Int))).toNat / 86400 + 1 = 3 + 1 := by
      rw [show now - (now - (259200 : Int)) = 259200 by omega]
      decide
    rw [hfuel, initLoop_succ, if_neg (by omega : ¬ now ≤ now - (259200 : Int))]
    have hstart : max (now - (259200 : Int)) (now - 86400 + writeInterval)
        = now - 86380 := by
      rw [max_eq_right (by unfold writeInterval; omega)]
      unfold writeInterval
      omega
    rw [hstart, hc]
    dsimp only
    rw [show ([generateSamplesSum ((N : ℚ) - 1) generateValue (now - 86380) writeInterval 4119
        ++ generateSamplesSum (N : ℚ) generateValue (now - 4000) writeInterval 198] :
        List (List (Int × ℚ))).flatten
      = generateSamplesSum ((N : ℚ) - 1) generateValue (now - 86380) writeInterval 4119
        ++ generateSamplesSum (N : ℚ) generateValue (now - 4000) writeInterval 198 from by simp]
    rw [hfv]
    dsimp only
    rw [if_pos (show MetricHistory.zero.queryMaxTime = 0 from rfl),
      if_neg (by omega : ¬ (now - 60 ≤ now - 3600)),
      if_neg (by omega : ¬ (now - 4000 ≤ now - 86380))]

/-- C4 at the in-repo inputs: `N = 2`, `now = 864000`, constant unit
generator — `Init` recovers `queryMinTime = now − 4000` and `queryMaxTime =
lastWrittenTimestamp = now − 60` from the mixed-cardinality chunk with one
query. -/
theorem Init_cardinality_change_witness :
    (∀ (t : Int) (v : ℚ), sampleValid 2 genOne (t, v) = true ↔
      round (v / genOne t) = (2 : Int)) ∧
    Init ⟨2, 259200⟩ genOne cardChangeClient 864000
      = (⟨864000 - 60, 864000 - 4000, 864000 - 60⟩, 1) :=
  Init_cardinality_change 2 genOne (by intro t; simp [genOne]) 864000 cardChangeClient rfl

/-! ## Grounding the model against the in-repo test suite

Each theorem below reproduces, inside the model, the assertions of one test
of `TestWriteReadSeriesTest_Run`, `TestWriteReadSeriesTest_Init` or
`TestWriteReadSeriesTest_getRangeQueryTimeRanges` (per metric; the suite
multiplies the counters by the number of metric tuples). -/

/-- `should write series with current timestamp if it's already aligned to
write interval`: one write at 1000, `lastWrittenTimestamp = 1000`, 4
`QueryRange` and 4 `Query` calls at `(1000, 1000)` and `1000`, and the
gathered counters `writes_total = 1`, `queries_total = 8`,
`queries_failed_total = 0`. -/
theorem ground_run_aligned_first_tick :
    Run cfgScenario genOne (constClient 200) rndLow MetricHistory.zero 1000
      = ⟨⟨1000, 1000, 1000⟩, 1, [], 8, 0, 0, 0, [1000],
          [(1000, 1000), (1000, 1000), (1000, 1000), (1000, 1000)],
          [1000, 1000, 1000, 1000], false⟩ := by
  decide

/-- `should write series with timestamp aligned to write interval`: at
`now = 999` the single write goes to the aligned target 980. -/
theorem ground_run_misaligned_tick :
    Run cfgScenario genOne (constClient 200) rndLow MetricHistory.zero 999
      = ⟨⟨980, 980, 980⟩, 1, [], 8, 0, 0, 0, [980],
          [(980, 980), (980, 980), (980, 980), (980, 980)],
          [980, 980, 980, 980], false⟩ := by
  decide

/-- `should write series from last written timestamp until now`: writes at
960, 980, 1000 in order, `lastWrittenTimestamp = 1000`, `writes_total = 3`,
`queries_total = 8`, and among the issued queries `QueryRange(960, 1000)` and
`Query(1000)` as the test asserts. -/
theorem ground_run_backfill :
    Run cfgScenario genOne (constClient 200) rndLow ⟨940, 0, 0⟩ 1000
      = ⟨⟨1000, 960, 1000⟩, 3, [], 8, 0, 0, 0, [960, 980, 1000],
          [(960, 1000), (960, 1000), (960, 960), (960, 960)],
          [1000, 1000, 960, 960], false⟩ := by
  decide

/-- `should stop remote writing on network error`: one write attempt at 960,
failure counted under status code 0, history unchanged, no queries, error. -/
theorem ground_run_network_error :
    Run cfgScenario genOne (constClient 0) rndLow ⟨940, 0, 0⟩ 1000
      = ⟨⟨940, 0, 0⟩, 1, [0], 0, 0, 0, 0, [960], [], [], true⟩ := by
  decide

/-- `should stop remote writing on 5xx error`: one write attempt at 960,
failure counted under status code 500, `lastWrittenTimestamp` still 940, no
queries, error. -/
theorem ground_run_5xx :
    Run cfgScenario genOne (constClient 500) rndLow ⟨940, 0, 0⟩ 1000
      = ⟨⟨940, 0, 0⟩, 1, [500], 0, 0, 0, 0, [960], [], [], true⟩ := by
  decide

/-- `should keep remote writing next intervals on 4xx error`: all three
writes attempted, three failures counted under status code 400,
`lastWrittenTimestamp = 1000`, no queries, error. -/
theorem ground_run_4xx :
    Run cfgScenario genOne (constClient 400) rndLow ⟨940, 0, 0⟩ 1000
      = ⟨⟨1000, 0, 0⟩, 3, [400, 400, 400], 0, 0, 0, 0, [960, 980, 1000], [], [], true⟩ := by
  decide

/-- The value comparator behind the match/mismatch tests: the exact expected
sum `2 · generateValue(t)` passes the `1e-6` relative-tolerance check, while
the corrupted value `12345` (against the expected `2/3`) fails it. -/
theorem ground_sampleMatches :
    sampleMatches 2 2 = true ∧ sampleMatches (2 / 3) 12345 = false := by
  constructor
  · simp [sampleMatches, maxComparisonDelta]
  · simp [sampleMatches, maxComparisonDelta]
    rw [abs_of_pos (by norm_num : (0 : ℚ) < 12345 - 2 / 3),
      abs_of_pos (by norm_num : (0 : ℚ) < 2 / 3),
      max_eq_left (by norm_num : (2 / 3 : ℚ) ≤ 1)]
    norm_num

/-- The six successful planner cases of
`TestWriteReadSeriesTest_getRangeQueryTimeRanges` (48 h max query age except
the last, `now = 864000` standing in for the test's clock): the returned
ranges, instants and order match the test's expectations, with the random
source pinned to the lower bound. -/
theorem ground_planner_cases :
    getQueryTimeRanges 172800 rndLow 864000 ⟨0, 863940, 863940⟩
      = ⟨[(863940, 863940), (863940, 863940)], [863940, 863940], none⟩ ∧
    getQueryTimeRanges 172800 rndLow 864000 ⟨0, 862200, 863940⟩
      = ⟨[(862200, 863940), (862200, 862200)], [863940, 862200], none⟩ ∧
    getQueryTimeRanges 172800 rndLow 864000 ⟨0, 858600, 859200⟩
      = ⟨[(858600, 859200), (858600, 858600)], [858600, 858600], none⟩ ∧
    getQueryTimeRanges 172800 rndLow 864000 ⟨0, 756000, 863940⟩
      = ⟨[(860400, 863940), (777600, 863940), (777600, 781200), (756000, 756000)],
          [863940, 777600, 756000], none⟩ ∧
    getQueryTimeRanges 172800 rndLow 864000 ⟨0, 756000, 774000⟩
      = ⟨[(756000, 756000)], [756000], none⟩ ∧
    getQueryTimeRanges 600 rndLow 864000 ⟨0, 756000, 863940⟩
      = ⟨[(863400, 863940), (863400, 863400)], [863940, 863400], none⟩ := by
  refine ⟨?_, ?_, ?_, ?_, ?_, ?_⟩ <;> decide

/-- `no previously written samples found`: an empty matrix leaves the whole
history zero after a single query. -/
theorem ground_init_no_samples :
    Init ⟨2, 259200⟩ genOne (fun _ _ => .ok []) 864000 = (MetricHistory.zero, 1) := by
  decide

/-- `the configured query max age is < 24h` and `previously written data
points are in the range [-2h, -1m]` (clipped variant): a single clipped query
over `[now − 2h, now]` whose 358 samples all carry the current cardinality
recovers `queryMinTime = now − 2h` and `queryMaxTime = lastWrittenTimestamp =
now − 1m`. -/
theorem ground_init_recent_history (N : Nat) (generateValue : Int → ℚ)
    (hgen : ∀ t, generateValue t ≠ 0) (now : Int)
    (client : Int → Int → Except Unit (List (List (Int × ℚ))))
    (hc : client (now - 7200) now
      = .ok [generateSamplesSum (N : ℚ) generateValue (now - 7200) writeInterval 358]) :
    Init ⟨N, 7200⟩ generateValue client now = (⟨now - 60, now - 7200, now - 60⟩, 1) := by
  have hvB : ∀ s ∈ generateSamplesSum (N : ℚ) generateValue (now - 7200) writeInterval 358,
      sampleValid N generateValue s = true := by
    intro s hs
    unfold generateSamplesSum at hs
    rw [List.mem_map] at hs
    obtain ⟨t, ht, rfl⟩ := hs
    unfold sampleValid
    dsimp only
    rw [mul_div_cancel_right₀ _ (hgen t)]
    simp
  have hfv := findValidRun_append writeInterval (sampleValid N generateValue) []
    (N : ℚ) generateValue (now - 7200) 358 (by norm_num) hvB (Or.inl rfl)
  rw [List.nil_append] at hfv
  have hlatest : now - 7200 + writeInterval * (((358 : Nat) : Int) - 1) = now - 60 := by
    unfold writeInterval
    push_cast
    omega
  rw [hlatest] at hfv
  unfold Init
  dsimp only
  have hfuel : (now - (now - (7200 : Int))).toNat / 86400 + 1 = 0 + 1 := by
    rw [show now - (now - (7200 : Int)) = 7200 by omega]
    decide
  rw [hfuel, initLoop_succ, if_neg (by omega : ¬ now ≤ now - (7200 : Int))]
  have hstart : max (now - (7200 : Int)) (now - 86400 + writeInterval) = now - 7200 := by
    rw [max_eq_left (by unfold writeInterval; omega)]
  rw [hstart, hc]
  dsimp only
  rw [show ([generateSamplesSum (N : ℚ) generateValue (now - 7200) writeInterval 358] :
      List (List (Int × ℚ))).flatten
    = generateSamplesSum (N : ℚ) generateValue (now - 7200) writeInterval 358 from by simp]
  rw [hfv]
  dsimp only
  rw [if_pos (show MetricHistory.zero.queryMaxTime = 0 from rfl),
    if_neg (by omega : ¬ (now - 60 ≤ now - 3600)),
    if_pos (le_refl (now - 7200))]
  rfl

/-- Instance of `ground_init_recent_history` at the test's concrete clock. -/
theorem ground_init_recent_history_inst :
    Init ⟨2, 7200⟩ genOne
        (fun _ _ => .ok [generateSamplesSum ((2 : Nat) : ℚ) genOne (864000 - 7200)
          writeInterval 358]) 864000
      = (⟨864000 - 60, 864000 - 7200, 864000 - 60⟩, 1) :=
  ground_init_recent_history 2 genOne (by intro t; simp [genOne]) 864000 _ rfl

end ContinuousTest
